import Mathlib

/-
Verification of the DeGirum CppSDK client library against its design
specification.

The development shallowly embeds the relevant C++ code:
  * `dg_client_structs.h` - server-address parsing (`ServerAddress`),
    protocol-version constants, `messagePrepareJson`;
  * `dg_json_helpers.h` - `JsonHelper::errorCheck`;
  * `dg_client.h` / `dg_client_asio.h` (TCP client `ClientAsio`) and
    `dg_client_http.cpp` (HTTP client `ClientHttp`) - the streaming
    pipeline, modelled as explicit state machines in which the results
    arriving from the server are explicit events.

C++ `std::string` values are modelled as `List Char`; machine integers as
`Nat`/`Int` with explicit wraparound where it matters (`size_t`
subtraction); code that can throw returns `Except DGError _` or reports an
outcome value carrying the thrown error kind.
-/

namespace DG

/-! ## C++ string primitives used by `ServerAddress::fromHostname` -/

/-- Model of `std::string::find(pat)`: index of the first occurrence of
`pat` in `s`, or `none` for `std::string::npos`. -/
def strFind : List Char → List Char → Option Nat
  | [], pat => if pat.isPrefixOf ([] : List Char) then some 0 else none
  | a :: t, pat =>
    if pat.isPrefixOf (a :: t) then some 0 else (strFind t pat).map (· + 1)

/-- Model of `std::string::rfind(":")` for a single character: index of the
last occurrence of `c` in `s`, or `none` for `std::string::npos`. -/
def strRfind : List Char → Char → Option Nat
  | [], _ => none
  | a :: t, c =>
    match strRfind t c with
    | some i => some (i + 1)
    | none => if a = c then some 0 else none

/-- Characters treated as whitespace by C `isspace` (the locale-independent
set skipped by `atoi`). -/
def isSpaceC (c : Char) : Bool :=
  c == ' ' || c == '\t' || c == '\n' || c == '\x0b' || c == '\x0c' || c == '\r'

/-- Digit-consuming loop of C `atoi`: accumulates decimal digits, stopping
at the first non-digit character. -/
def atoiDigits : List Char → Nat → Nat
  | [], acc => acc
  | c :: t, acc =>
    if c.isDigit then atoiDigits t (acc * 10 + (c.toNat - 48)) else acc

/-- Truncation of an integer into the range of the 32-bit `int`, the
return type of `atoi`. The C standard leaves the out-of-range case of
`atoi` undefined; the truncating (two's-complement) conversion is the
behavior of the common implementations, and the theorems below rely on
the conversion only inside the representable range, where it is the
identity. -/
def intOfInt32 (i : Int) : Int := (i + 2 ^ 31) % 2 ^ 32 - 2 ^ 31

/-- Model of C `atoi`: skip leading whitespace, optional sign, then decimal
digits; returns 0 when no digits are present. The accumulated value is
converted into the 32-bit `int` result by `intOfInt32`. -/
def atoiChars (s : List Char) : Int :=
  match s.dropWhile isSpaceC with
  | [] => 0
  | c :: r =>
    if c = '-' then intOfInt32 (-(atoiDigits r 0 : Int))
    else if c = '+' then intOfInt32 (atoiDigits r 0 : Int)
    else intOfInt32 (atoiDigits (c :: r) 0 : Int)

/-- Decimal digit character for a value 0..9 (values above 9 only arise
from `n % 10` and are clamped to '9', which is never reached). -/
def decimalDigit : Nat → Char
  | 0 => '0' | 1 => '1' | 2 => '2' | 3 => '3' | 4 => '4'
  | 5 => '5' | 6 => '6' | 7 => '7' | 8 => '8' | _ => '9'

/-- Helper of `natToChars`: writes the decimal digits of `n` in front of
`acc`. The first argument is fuel forcing structural termination; any fuel
at least the number of digits computes the exact representation, and
`natToChars` passes `n` itself, which always suffices. -/
def natToCharsFuel : Nat → Nat → List Char → List Char
  | 0, n, acc => decimalDigit n :: acc
  | fuel + 1, n, acc =>
    if n < 10 then decimalDigit n :: acc
    else natToCharsFuel fuel (n / 10) (decimalDigit (n % 10) :: acc)

/-- Decimal representation of a natural number, as produced by
`std::to_string` for non-negative values. -/
def natToChars (n : Nat) : List Char := natToCharsFuel n n []

/-- Model of `std::to_string(int)`. -/
def intToChars (i : Int) : List Char :=
  if i < 0 then '-' :: natToChars i.natAbs else natToChars i.natAbs

/-! ## `dg_client_structs.h`: constants and `ServerAddress` -/

/-- client-server protocol version tag (`PROTOCOL_VERSION_TAG`). -/
def PROTOCOL_VERSION_TAG : String := "VERSION"

/-- minimum compatible client-server protocol version. -/
def MIN_COMPATIBLE_PROTOCOL_VERSION : Int := 4

/-- current client-server protocol version. -/
def CURRENT_PROTOCOL_VERSION : Int := 4

/-- Default TCP port of AI server. -/
def DEFAULT_PORT : Int := 8778

/-- Error kinds raised via `DG_ERROR` / `DG_CRITICAL_ERROR` (from
`DGErrorHandling.h`, which only declares the codes; the kinds appearing in
the client sources are listed). `AssertFail` stands for the error raised by
a failed `DG_ERROR_TRUE` assertion, and `TypeErr` for the exception thrown
by `nlohmann::json::get` on a type mismatch. -/
inductive DGError where
  | BadParameter
  | OperationFailed
  | Timeout
  | NotSupportedVersion
  | IncorrectAPIUse
  | ParseError
  | AssertFail
  | TypeErr
deriving DecidableEq, Repr

/-- Server protocol type (`enum class ServerType`). -/
inductive ServerType where
  | Unknown
  | Asio
  | Http
deriving DecidableEq, Repr

/-- `ServerAddress`: AI server TCP/IP address, port, and protocol type. -/
structure ServerAddress where
  ip : List Char
  port : Int
  server_type : ServerType
deriving DecidableEq, Repr

/-- The characters of the scheme string `"http://"`. -/
def schemeHttp : List Char := "http://".toList

/-- The characters of the scheme string `"asio://"`. -/
def schemeAsio : List Char := "asio://".toList

/-- The prefix table of `ServerAddress::fromHostname`:
`{ { "http://", HTTP }, { "asio://", ASIO } }`. -/
def prefixTable : List (List Char × ServerType) :=
  [(schemeHttp, ServerType.Http), (schemeAsio, ServerType.Asio)]

/-- The prefix-deduction loop of `fromHostname`: `server_type` starts as
`ASIO`; the first table entry found anywhere in the string (via
`std::string::find`) sets the type and truncates the hostname to the text
after that occurrence, then the loop breaks. -/
def prefixScan (s : List Char) : List (List Char × ServerType) → List Char × ServerType
  | [] => (s, ServerType.Asio)
  | (pre, ty) :: rest =>
    match strFind s pre with
    | some delim => (s.drop (delim + pre.length), ty)
    | none => prefixScan s rest

/-- `ServerAddress::fromHostname`: deduce the protocol type from an
optional scheme, then split an optional `:port` suffix at the last `:`
(`rfind`), parsing the port with `atoi`; otherwise use `DEFAULT_PORT`. -/
def ServerAddress.fromHostname (hostname : List Char) : ServerAddress :=
  let ps := prefixScan hostname prefixTable
  match strRfind ps.1 ':' with
  | some delim =>
    ⟨ps.1.take delim, atoiChars (ps.1.drop (delim + 1)), ps.2⟩
  | none => ⟨ps.1, DEFAULT_PORT, ps.2⟩

/-- `ServerAddress::is_valid`: `!ip.empty()`. -/
def ServerAddress.is_valid (a : ServerAddress) : Bool := !a.ip.isEmpty

/-- `ServerAddress::operator std::string`:
`(server_type == HTTP ? "http://" : "") + ip + ":" + std::to_string(port)`. -/
def ServerAddress.toChars (a : ServerAddress) : List Char :=
  (if a.server_type = ServerType.Http then schemeHttp else []) ++
    a.ip ++ ':' :: intToChars a.port

/-- The address-parsing step of `Client::create` (`dg_client.cpp`): it
calls `ServerAddress::fromHostname` and performs no validity check;
`fromHostname` itself contains no error path, so parsing always succeeds
and never raises. The `Except` result type records this observation. -/
def parseServerAddress (hostname : List Char) : Except DGError ServerAddress :=
  Except.ok (ServerAddress.fromHostname hostname)

/-- Modelled from the spec: the normalization named by the round-trip law
of §8 ("default port made explicit; scheme prefix preserved for HTTP,
elided for TCP"). The `asio://` prefix is removed, the `http://` prefix is
kept, and `:8778` is appended when the part after the scheme carries no
`:port` suffix. This definition follows the spec's words and is compared
against the composition of the source functions `fromHostname` and
`operator std::string`. -/
def normSpec (s : List Char) : List Char :=
  if schemeAsio.isPrefixOf s then
    let rem := s.drop 7
    if (strRfind rem ':').isSome then rem else rem ++ ':' :: natToChars 8778
  else if schemeHttp.isPrefixOf s then
    let rem := s.drop 7
    if (strRfind rem ':').isSome then s else s ++ ':' :: natToChars 8778
  else
    if (strRfind s ':').isSome then s else s ++ ':' :: natToChars 8778

/-! ## JSON values, `messagePrepareJson` and `JsonHelper::errorCheck` -/

/-- Minimal model of `nlohmann::json` values as used by the client. -/
inductive Json where
  | null
  | bool (b : Bool)
  | num (n : Int)
  | str (s : String)
  | arr (elems : List Json)
  | obj (fields : List (String × Json))

/-- `json::is_object()`. -/
def Json.isObject : Json → Bool
  | .obj _ => true
  | _ => false

/-- Field lookup on an object (`operator[]` for reading); `none` when the
value is not an object or the key is absent. -/
def Json.getKey : Json → String → Option Json
  | .obj fs, k => (fs.find? (fun kv => kv.1 == k)).map (·.2)
  | _, _ => none

/-- `json::contains(key)`. -/
def Json.containsKey (j : Json) (k : String) : Bool := (j.getKey k).isSome

/-- Insert-or-assign on an object's field list (`operator[]` for
writing). -/
def setFields (fs : List (String × Json)) (k : String) (v : Json) :
    List (String × Json) :=
  match fs with
  | [] => [(k, v)]
  | (k0, v0) :: rest =>
    if k0 = k then (k0, v) :: rest else (k0, v0) :: setFields rest k v

/-- `json[key] = value` on an object (non-objects are left unchanged; the
client only applies it to objects). -/
def Json.setKey : Json → String → Json → Json
  | .obj fs, k, v => .obj (setFields fs k v)
  | j, _, _ => j

/-- `json::get<bool>()`: `none` models the `type_error` exception. -/
def Json.asBool : Json → Option Bool
  | .bool b => some b
  | _ => none

/-- `json::get<std::string>()`: `none` models the `type_error`
exception. -/
def Json.asStr : Json → Option String
  | .str s => some s
  | _ => none

/-- `messagePrepareJson` (`dg_client_structs.h`): assert the input is an
object (`DG_ERROR_TRUE`), return it unchanged when it already contains the
`VERSION` tag, otherwise return it extended with
`VERSION = CURRENT_PROTOCOL_VERSION`. -/
def messagePrepareJson (j : Json) : Except DGError Json :=
  if j.isObject = false then .error DGError.AssertFail
  else if j.containsKey PROTOCOL_VERSION_TAG then .ok j
  else .ok (j.setKey PROTOCOL_VERSION_TAG (Json.num CURRENT_PROTOCOL_VERSION))

/-- `JsonHelper::errorCheck` (`dg_json_helpers.h`): when the response has a
`success` field equal to `false`, extract the `msg` field (or
"unspecified error"); with `do_throw` the error is raised as
`OperationFailed`, otherwise the message string is returned; an empty
string means no error. -/
def errorCheck (response : Json) (do_throw : Bool) : Except DGError String :=
  match response.getKey "success" with
  | none => .ok ""
  | some sv =>
    match sv.asBool with
    | none => .error DGError.TypeErr
    | some true => .ok ""
    | some false =>
      match
        (match response.getKey "msg" with
         | none => some "unspecified error"
         | some mv => mv.asStr) with
      | none => .error DGError.TypeErr
      | some msg =>
        if do_throw then .error DGError.OperationFailed else .ok msg

/-- The response-validation tail of `ClientAsio::transmitCommand`
(`dg_client.h`, after the reply is parsed): a non-object response or a
response without the `VERSION` tag fails with `NotSupportedVersion`; then
`JsonHelper::errorCheck` is applied with `do_throw = true`. No comparison
of the `VERSION` value against `MIN_COMPATIBLE_PROTOCOL_VERSION` is
performed. -/
def transmitCommandCheck (response : Json) : Except DGError Unit :=
  if response.isObject = false then .error DGError.NotSupportedVersion
  else if response.containsKey PROTOCOL_VERSION_TAG = false then
    .error DGError.NotSupportedVersion
  else
    match errorCheck response true with
    | .error e => .error e
    | .ok _ => .ok ()

/-! ## `ClientHttp` streaming pipeline (`dg_client_http.cpp`)

The pipeline state is the `ClientHttp::State` structure together with the
configuration members touched by the streaming methods. The WebSocket
worker thread delivering server results is modelled by explicit events:
each event carries the error message extracted from the received result by
`errorCheck` (`""` for a successful result). Waits on the condition
variable consume a caller-chosen list of such arrivals; exhausting the list
while the wait condition still fails models the `inference_timeout`
expiring. -/

/-- Runtime state of a `ClientHttp` object: `m_state.m_frame_info_queue`,
`m_state.m_last_error`, whether `m_async_result_callback` is installed,
whether `m_ws_client` is non-null, and `m_frame_queue_depth`. -/
structure HttpState where
  frame_info_queue : List String := []
  last_error : String := ""
  callback_installed : Bool := false
  ws_open : Bool := false
  frame_queue_depth : Nat := 0
deriving DecidableEq, Repr

/-- Message stored in `m_last_error` when a wait for inference completion
times out (`DG_ERROR(... "Timeout ..." ..., ErrTimeout)` caught and
preserved by `ClientHttp::waitFor`). -/
def httpTimeoutMsg : String := "Timeout waiting for inference completion"

/-- `size_t` subtraction of 1, with wraparound: `m_frame_queue_depth - 1`
as computed in `ClientHttp::dataSend`. -/
def sizeSub1 (n : Nat) : Nat := (n + (2 ^ 64 - 1)) % 2 ^ 64

/-- Result of one invocation of the `callback_adapter` installed by
`ClientHttp::resultObserve`: the successor state and whether the user
callback was invoked. -/
structure HttpRecvRes where
  state : HttpState
  invoked : Bool
deriving DecidableEq, Repr

/-- The `callback_adapter` of `ClientHttp::resultObserve`, processing one
received result whose `errorCheck` message is `err`: read the front frame
info, remember whether an error was already recorded, store a non-empty
`err` into `m_last_error`, invoke the user callback only when no error was
recorded before this result, then pop the frame info queue. An arrival
with an empty queue cannot occur (the server sends one result per queued
frame); it is modelled as a no-op. -/
def httpRecvResult (s : HttpState) (err : String) : HttpRecvRes :=
  match s.frame_info_queue with
  | [] => ⟨s, false⟩
  | _fi :: rest =>
    let was_error : Bool := s.last_error != ""
    let s1 := if err ≠ "" then { s with last_error := err } else s
    ⟨{ s1 with frame_info_queue := rest }, !was_error⟩

/-- Outcome of a wait (`ClientHttp::waitFor`): the loop exited with no
error recorded (the function returned `true`), the loop exited because
`m_last_error` is set (returned `false`), or an error was thrown. -/
inductive WaitOutcome where
  | ok
  | errorDetected
  | thrown (e : DGError)
deriving DecidableEq, Repr

/-- `ClientHttp::waitFor(outstanding_frames, lock)`: loop while the queue
is larger than `target` and no error is recorded, processing one arriving
result per wait; when the arrivals are exhausted the wait times out, and
the thrown `ErrTimeout` is caught, preserved in `m_last_error`, and
rethrown. Returns the successor state, the callback-invocation flags of
the results processed during the wait, and the outcome. -/
def httpWaitFor (s : HttpState) (target : Nat) (arrivals : List String) :
    HttpState × List Bool × WaitOutcome :=
  if s.frame_info_queue.length ≤ target ∨ s.last_error ≠ "" then
    (s, [], if s.last_error = "" then .ok else .errorDetected)
  else
    match arrivals with
    | [] => ({ s with last_error := httpTimeoutMsg }, [], .thrown DGError.Timeout)
    | e :: rest =>
      let r := httpRecvResult s e
      let (s1, cbs, out) := httpWaitFor r.state target rest
      (s1, r.invoked :: cbs, out)

/-- Outcome of `dataSend`: the frame was sent, silently dropped, or an
exception escaped. -/
inductive SendOutcome where
  | sent
  | dropped
  | thrown (e : DGError)
deriving DecidableEq, Repr

/-- `ClientHttp::dataSend`: raise `IncorrectAPIUse` when the stream is not
open or no callback is installed; wait for room in the outstanding frame
queue (`waitFor(m_frame_queue_depth - 1)`); if the wait reports a recorded
error, return without posting the frame; otherwise push the frame info and
send the frame. -/
def httpDataSend (s : HttpState) (frame_info : String) (arrivals : List String) :
    HttpState × List Bool × SendOutcome :=
  if s.ws_open = false then (s, [], .thrown DGError.IncorrectAPIUse)
  else if s.callback_installed = false then (s, [], .thrown DGError.IncorrectAPIUse)
  else
    match httpWaitFor s (sizeSub1 s.frame_queue_depth) arrivals with
    | (s1, cbs, .ok) =>
      ({ s1 with frame_info_queue := s1.frame_info_queue ++ [frame_info] }, cbs, .sent)
    | (s1, cbs, .errorDetected) => (s1, cbs, .dropped)
    | (s1, cbs, .thrown e) => (s1, cbs, .thrown e)

/-- `ClientHttp::dataEnd`: `waitFor(0, lock)`; the boolean result is
discarded, but an exception thrown by the wait propagates. -/
def httpDataEnd (s : HttpState) (arrivals : List String) :
    HttpState × List Bool × WaitOutcome :=
  httpWaitFor s 0 arrivals

/-- `ClientHttp::resultObserve`: store the callback (the adapter is re-set
on the WebSocket client when present). -/
def httpResultObserve (s : HttpState) (cb : Bool) : HttpState :=
  { s with callback_installed := cb }

/-- `ClientHttp::openStream` (successful handshake): store the queue
depth, (re)create the WebSocket client, clear `m_last_error`, and re-set
the callback. A handshake or configuration failure would throw before the
error is cleared; the model covers the successful path used by the
claims. -/
def httpOpenStream (s : HttpState) (depth : Nat) : HttpState :=
  { s with frame_queue_depth := depth, ws_open := true, last_error := "" }

/-- `ClientHttp::predict`: fails with `IncorrectAPIUse` when a streaming
callback is installed; otherwise temporarily installs an internal capture
callback (removed again on every exit path by `RAII_Cleanup`), performs
`dataSend` then `dataEnd`, and finally throws `DGException` when
`m_last_error` is set. -/
def httpPredict (s : HttpState) (arrivals1 arrivals2 : List String) :
    HttpState × Option DGError :=
  if s.callback_installed then (s, some DGError.IncorrectAPIUse)
  else
    let s0 := { s with callback_installed := true }
    match httpDataSend s0 "" arrivals1 with
    | (s1, _, .thrown e) => ({ s1 with callback_installed := false }, some e)
    | (s1, _, _) =>
      match httpDataEnd s1 arrivals2 with
      | (s2, _, .thrown e) => ({ s2 with callback_installed := false }, some e)
      | (s2, _, _) =>
        let s3 := { s2 with callback_installed := false }
        if s3.last_error ≠ "" then (s3, some DGError.OperationFailed)
        else (s3, none)

/-- Operations on a `ClientHttp` object, with server results as explicit
events. `recv` is a result dispatched by the WebSocket worker outside any
wait. -/
inductive HttpEvent where
  | openStream (depth : Nat)
  | observe (cb : Bool)
  | send (frame_info : String) (arrivals : List String)
  | recv (err : String)
  | drain (arrivals : List String)
deriving Repr

/-- Whether an event is an `openStream`. -/
def HttpEvent.isOpen : HttpEvent → Bool
  | .openStream _ => true
  | _ => false

/-- State reached after one operation (the exception, if any, propagates
to the caller while the object state persists). -/
def httpStep (s : HttpState) : HttpEvent → HttpState
  | .openStream d => httpOpenStream s d
  | .observe cb => httpResultObserve s cb
  | .send fi arr => (httpDataSend s fi arr).1
  | .recv e => (httpRecvResult s e).state
  | .drain arr => (httpDataEnd s arr).1

/-- State reached after a sequence of operations. -/
def httpRun (s : HttpState) (evs : List HttpEvent) : HttpState :=
  evs.foldl httpStep s

/-! ## `ClientAsio` streaming pipeline (`dg_client_asio.h` implementation)

The reactor and the result-receiving thread are modelled by events: a
`dataReceive` completion can fire only while an asynchronous read is
scheduled (`initiate_read` was called), represented by the `read_pending`
flag; a communication error or response timeout inside the receiving
thread is the `threadError` event (its `catch` block stores the message in
`m_last_error`, zeroes the outstanding counter and sets the stop flag). -/

/-- Runtime state of a `ClientAsio` object: `m_async_outstanding_results`,
`m_frame_info_queue`, `m_last_error`, `m_async_stop`, whether
`m_async_thread` is joinable, whether an asynchronous read is scheduled,
whether `m_stream_socket` is open, whether `m_async_result_callback` is
installed, and `m_frame_queue_depth`. -/
structure AsioState where
  outstanding : Nat := 0
  frame_info_queue : List String := []
  last_error : String := ""
  async_stop : Bool := false
  thread_joinable : Bool := false
  read_pending : Bool := false
  stream_open : Bool := false
  callback_installed : Bool := false
  frame_queue_depth : Nat := 0
deriving DecidableEq, Repr

/-- Message stored in `m_last_error` when the receiving thread catches a
timeout or communication error (`DG_CRITICAL_ERROR` inside the thread
body). -/
def asioThreadErrMsg : String := "Timeout waiting for response from AI server"

/-- `ClientAsio::dataReceive`, processing one received result whose
`errorCheck` message is `err`: pop the front frame info; on an error
store it in `m_last_error`, zero the outstanding counter and set the stop
flag, otherwise decrement the counter; schedule another read when results
remain outstanding; finally invoke the user callback (always, errors from
it swallowed). Fires only while a read is scheduled. -/
def asioDataReceive (s : AsioState) (err : String) : AsioState × Bool :=
  if s.read_pending = false then (s, false)
  else
    match s.frame_info_queue with
    | [] => (s, false)
    | _fi :: rest =>
      let s1 := { s with frame_info_queue := rest, read_pending := false }
      let s2 :=
        if err ≠ "" then
          { s1 with last_error := err, outstanding := 0, async_stop := true }
        else { s1 with outstanding := s1.outstanding - 1 }
      let s3 := if 0 < s2.outstanding then { s2 with read_pending := true } else s2
      (s3, true)

/-- The receiving thread's own error exit (`catch` block of the thread
body): record the message, zero the outstanding counter, set the stop
flag. The thread function returns but the thread stays joinable. -/
def asioThreadError (s : AsioState) (msg : String) : AsioState :=
  if s.thread_joinable then
    { s with last_error := msg, outstanding := 0, async_stop := true }
  else s

/-- Outcome of the queue-space wait inside `ClientAsio::dataSend`. -/
inductive AsioWaitOutcome where
  | proceed
  | timedOut
deriving DecidableEq, Repr

/-- The wait of `ClientAsio::dataSend`: when the outstanding count has
reached the queue depth, wait on the condition variable until
`m_async_outstanding_results < m_frame_queue_depth || m_async_stop`,
processing one received result per wait; exhausted arrivals model the
`inference_timeout` expiring, upon which `DG_CRITICAL_ERROR(ErrTimeout)`
is thrown out of `dataSend`. -/
def asioSendWait (s : AsioState) (arrivals : List String) :
    AsioState × List Bool × AsioWaitOutcome :=
  if s.outstanding < s.frame_queue_depth ∨ s.async_stop = true then
    (s, [], .proceed)
  else
    match arrivals with
    | [] => (s, [], .timedOut)
    | e :: rest =>
      let r := asioDataReceive s e
      let (s1, cbs, out) := asioSendWait r.1 rest
      (s1, r.2 :: cbs, out)

/-- `ClientAsio::dataSend`: raise `IncorrectAPIUse` when the stream socket
is not open or no callback is installed; return silently when
`m_async_stop && !m_last_error.empty()`; wait for queue space (timeout
throws `ErrTimeout`); re-check the error condition; push the frame info,
increment the outstanding counter, schedule the first read when the
counter became 1, send the frame; finally, start the receiving thread if
it is not joinable, resetting `m_async_stop` and clearing
`m_last_error`. -/
def asioDataSend (s : AsioState) (frame_info : String) (arrivals : List String) :
    AsioState × List Bool × SendOutcome :=
  if s.stream_open = false then (s, [], .thrown DGError.IncorrectAPIUse)
  else if s.callback_installed = false then (s, [], .thrown DGError.IncorrectAPIUse)
  else if s.async_stop = true ∧ s.last_error ≠ "" then (s, [], .dropped)
  else
    match asioSendWait s arrivals with
    | (s1, cbs, .timedOut) => (s1, cbs, .thrown DGError.Timeout)
    | (s1, cbs, .proceed) =>
      if s1.async_stop = true ∧ s1.last_error ≠ "" then (s1, cbs, .dropped)
      else
        let s2 := { s1 with
          frame_info_queue := s1.frame_info_queue ++ [frame_info],
          outstanding := s1.outstanding + 1 }
        let s3 := if s2.outstanding = 1 then { s2 with read_pending := true } else s2
        let s4 :=
          if s3.thread_joinable = false then
            { s3 with async_stop := false, last_error := "", thread_joinable := true }
          else s3
        (s4, cbs, .sent)

/-- The drain performed while joining the receiving thread: the thread
loops until the stop flag is set and no results are outstanding,
processing received results; exhausted arrivals model the response
timeout, which the thread's `catch` block converts into a recorded error
(never an exception). Returns the final state and the callback-invocation
flags. -/
def asioDrain (s : AsioState) (arrivals : List String) : AsioState × List Bool :=
  if s.outstanding = 0 then (s, [])
  else
    match arrivals with
    | [] => (asioThreadError s asioThreadErrMsg, [])
    | e :: rest =>
      let r := asioDataReceive s e
      let (s1, cbs) := asioDrain r.1 rest
      (s1, r.2 :: cbs)

/-- `ClientAsio::dataEnd`: set the stop flag, notify, and join the
receiving thread when it is joinable (waiting for the drain). No statement
in it can throw; thread-side errors are caught inside the thread and
surface only through `lastError()`. -/
def asioDataEnd (s : AsioState) (arrivals : List String) : AsioState × List Bool :=
  let s1 := { s with async_stop := true }
  if s1.thread_joinable then
    let (s2, cbs) := asioDrain s1 arrivals
    ({ s2 with thread_joinable := false }, cbs)
  else (s1, [])

/-- `ClientAsio::resultObserve`: fails with `IncorrectAPIUse` while the
result receiving thread is running (joinable); otherwise installs the
callback. -/
def asioResultObserve (s : AsioState) (cb : Bool) : Except DGError AsioState :=
  if s.thread_joinable then .error DGError.IncorrectAPIUse
  else .ok { s with callback_installed := cb }

/-- `ClientAsio::openStream` (successful connect): store the queue depth
and open the stream socket. It does not touch `m_last_error`,
`m_async_stop`, the outstanding counter or the frame info queue. -/
def asioOpenStream (s : AsioState) (depth : Nat) : AsioState :=
  { s with frame_queue_depth := depth, stream_open := true }

/-- `ClientAsio::predict` (synchronous): fails with `IncorrectAPIUse` when
the stream socket is not open — no check of the installed callback; sends
the frame, reads the reply, assigns `m_last_error` from
`errorCheck(output, {}, false)` (clearing it on success), and throws
`OperationFailed` when the resulting message is non-empty. `server_err` is
the `errorCheck` message of the server's reply. -/
def asioPredict (s : AsioState) (server_err : String) :
    AsioState × Option DGError :=
  if s.stream_open = false then (s, some DGError.IncorrectAPIUse)
  else
    let s1 := { s with last_error := server_err }
    if server_err ≠ "" then (s1, some DGError.OperationFailed) else (s1, none)

/-- Streaming-pipeline operations on a `ClientAsio` object, with reactor
activity as explicit events. The synchronous `predict`, which bypasses the
pipeline but shares `m_last_error` with it, is the remaining operation; it
is covered by the full alphabet `AsioOp` below. -/
inductive AsioEvent where
  | openStream (depth : Nat)
  | observe (cb : Bool)
  | send (frame_info : String) (arrivals : List String)
  | recv (err : String)
  | threadErr (msg : String)
  | drain (arrivals : List String)
deriving Repr

/-- Whether an event is an `openStream`. -/
def AsioEvent.isOpen : AsioEvent → Bool
  | .openStream _ => true
  | _ => false

/-- State reached after one operation (exceptions propagate to the caller
while the object state persists; a failed `resultObserve` leaves the state
unchanged). -/
def asioStep (s : AsioState) : AsioEvent → AsioState
  | .openStream d => asioOpenStream s d
  | .observe cb =>
    match asioResultObserve s cb with
    | .ok s1 => s1
    | .error _ => s
  | .send fi arr => (asioDataSend s fi arr).1
  | .recv e => (asioDataReceive s e).1
  | .threadErr m => asioThreadError s m
  | .drain arr => (asioDataEnd s arr).1

/-- State reached after a sequence of operations. -/
def asioRun (s : AsioState) (evs : List AsioEvent) : AsioState :=
  evs.foldl asioStep s

/-- The full operation alphabet of a `ClientAsio` object: the
streaming-pipeline operations together with the synchronous `predict`
(whose event carries the `errorCheck` message of the server's reply). -/
inductive AsioOp where
  | stream (e : AsioEvent)
  | predictOp (server_err : String)
deriving Repr

/-- State reached after one operation of the full alphabet. -/
def asioOpStep (s : AsioState) : AsioOp → AsioState
  | .stream e => asioStep s e
  | .predictOp server_err => (asioPredict s server_err).1

/-- Error messages carried by an event are non-empty (exception messages
stored by the receiving thread's `catch` block are the non-empty texts
built by `DG_CRITICAL_ERROR` / `what()`). -/
def AsioEvent.errsNonempty : AsioEvent → Prop
  | .threadErr m => m ≠ ""
  | _ => True

/-- Session invariant of the `ClientHttp` pipeline: the queue depth is `D`
and the pending frame queue holds at most `D` entries. -/
def HttpInv (D : Nat) (s : HttpState) : Prop :=
  s.frame_queue_depth = D ∧ s.frame_info_queue.length ≤ D

/-- Session invariant of the `ClientAsio` pipeline: the queue depth is
`D`, at most `D` results are outstanding, a set stop flag implies that
nothing is outstanding and that either an error is recorded or the
receiving thread has been joined, and outstanding results imply a running
(joinable) receiving thread. -/
def AsioInv (D : Nat) (s : AsioState) : Prop :=
  s.frame_queue_depth = D ∧ s.outstanding ≤ D
  ∧ (s.async_stop = true →
      s.outstanding = 0 ∧ (s.last_error ≠ "" ∨ s.thread_joinable = false))
  ∧ (1 ≤ s.outstanding → s.thread_joinable = true)

/-- The optional `:port` suffix of a server-address string with a
canonically rendered decimal port. -/
def portSuffix : Option Nat → List Char
  | none => []
  | some p => ':' :: natToChars p

/-- Sample HTTP pipeline state: streaming configured, one queued frame,
no recorded error. -/
def hsSample : HttpState :=
  { frame_info_queue := ["a"], callback_installed := true, ws_open := true,
    frame_queue_depth := 2 }

/-- Sample HTTP pipeline state with a recorded sticky error. -/
def hsErrSample : HttpState := { hsSample with last_error := "boom" }

/-- Sample TCP pipeline state: streaming active, one outstanding frame,
a read scheduled. -/
def asSample : AsioState :=
  { outstanding := 1, frame_info_queue := ["a"], thread_joinable := true,
    read_pending := true, stream_open := true, callback_installed := true,
    frame_queue_depth := 2 }

/-- Sample TCP pipeline state after a server-reported error. -/
def asErrSample : AsioState :=
  { last_error := "boom", async_stop := true, thread_joinable := true,
    stream_open := true, callback_installed := true, frame_queue_depth := 2 }

/-- Event trace driving the HTTP pipeline into an errored session with
four frames still queued, followed by re-opening the stream with depth 1:
`openStream` does not clear `m_frame_info_queue`. -/
def c2HttpTrace : List HttpEvent :=
  [.openStream 5, .observe true, .send "f1" [], .send "f2" [], .send "f3" [],
   .send "f4" [], .send "f5" [], .recv "boom", .openStream 1]

/-! ## Helper lemmas about the JSON model -/

theorem find?_setFields_ne (fs : List (String × Json)) (k k' : String) (v : Json)
    (h : k' ≠ k) :
    (setFields fs k v).find? (fun kv => kv.1 == k') =
      fs.find? (fun kv => kv.1 == k') := by
  induction fs with
  | nil =>
    have hne : (k == k') = false := beq_eq_false_iff_ne.mpr (Ne.symm h)
    simp [setFields, List.find?, hne]
  | cons kv rest ih =>
    obtain ⟨k0, v0⟩ := kv
    by_cases hk : k0 = k
    · subst hk
      have : (k0 == k') = false := by
        simp [beq_iff_eq]
        exact fun hk => h hk.symm
      simp [setFields, List.find?, this]
    · simp [setFields, hk, List.find?]
      by_cases hk' : k0 = k'
      · simp [hk']
      · have : (k0 == k') = false := by simp [beq_iff_eq, hk']
        simp [this, ih]

theorem getKey_setKey_ne (fs : List (String × Json)) (k k' : String) (v : Json)
    (h : k' ≠ k) :
    ((Json.obj fs).setKey k v).getKey k' = (Json.obj fs).getKey k' := by
  simp [Json.setKey, Json.getKey, find?_setFields_ne fs k k' v h]

theorem getKey_setKey_same (fs : List (String × Json)) (k : String) (v : Json) :
    ((Json.obj fs).setKey k v).getKey k = some v := by
  simp only [Json.setKey, Json.getKey]
  induction fs with
  | nil => simp [setFields, List.find?]
  | cons kv rest ih =>
    obtain ⟨k0, v0⟩ := kv
    by_cases hk : k0 = k
    · subst hk
      simp [setFields, List.find?]
    · have : (k0 == k) = false := by simp [beq_iff_eq, hk]
      simp [setFields, hk, List.find?, this]
      simpa using ih

theorem containsKey_setKey_obj (fs : List (String × Json)) (k : String) (v : Json) :
    ((Json.obj fs).setKey k v).containsKey k = true := by
  simp [Json.containsKey, getKey_setKey_same]

theorem isObject_setKey (fs : List (String × Json)) (k : String) (v : Json) :
    ((Json.obj fs).setKey k v).isObject = true := by
  simp [Json.setKey, Json.isObject]

theorem errorCheck_setKey_tag (fs : List (String × Json)) (v : Json) (dt : Bool) :
    errorCheck ((Json.obj fs).setKey PROTOCOL_VERSION_TAG v) dt =
      errorCheck (Json.obj fs) dt := by
  unfold errorCheck
  rw [getKey_setKey_ne fs PROTOCOL_VERSION_TAG "success" v (by decide),
    getKey_setKey_ne fs PROTOCOL_VERSION_TAG "msg" v (by decide)]

theorem transmitCommandCheck_setKey (fs : List (String × Json)) (n : Int) :
    transmitCommandCheck ((Json.obj fs).setKey PROTOCOL_VERSION_TAG (Json.num n)) =
      (match errorCheck (Json.obj fs) true with
       | .error e => .error e
       | .ok _ => .ok ()) := by
  unfold transmitCommandCheck
  rw [errorCheck_setKey_tag]
  simp [isObject_setKey, containsKey_setKey_obj]

/-! ## Claims about the command/response layer -/

/-- C3 counterexample: a decoded response that is a JSON object whose
`VERSION` field carries the integer 1, strictly below
`MIN_COMPATIBLE_PROTOCOL_VERSION` = 4, is accepted by the response
validation of `ClientAsio::transmitCommand` instead of failing with
`NotSupportedVersion`. -/
theorem C3_counterexample :
    transmitCommandCheck (Json.obj [(PROTOCOL_VERSION_TAG, Json.num 1)]) =
      Except.ok ()
    ∧ (Json.obj [(PROTOCOL_VERSION_TAG, Json.num 1)]).getKey PROTOCOL_VERSION_TAG =
        some (Json.num 1)
    ∧ (1 : Int) < MIN_COMPATIBLE_PROTOCOL_VERSION :=
  ⟨rfl, rfl, by norm_num [MIN_COMPATIBLE_PROTOCOL_VERSION]⟩

/-- C3 (amended): a control-command response that is not a JSON object, or
lacks the `VERSION` field, fails with `NotSupportedVersion`; when the
field is present its integer value is never compared against the minimum
compatible version — the outcome of the validation is the same for every
`VERSION` value. -/
theorem C3_version_check (r : Json) :
    (r.isObject = false →
      transmitCommandCheck r = Except.error DGError.NotSupportedVersion)
    ∧ (r.containsKey PROTOCOL_VERSION_TAG = false →
      transmitCommandCheck r = Except.error DGError.NotSupportedVersion)
    ∧ (∀ n m : Int, r.isObject = true →
      transmitCommandCheck (r.setKey PROTOCOL_VERSION_TAG (Json.num n)) =
        transmitCommandCheck (r.setKey PROTOCOL_VERSION_TAG (Json.num m))) := by
  refine ⟨fun h => by simp [transmitCommandCheck, h], fun h => ?_, fun n m hobj => ?_⟩
  · cases ho : r.isObject with
    | true => simp [transmitCommandCheck, ho, h]
    | false => simp [transmitCommandCheck, ho]
  · cases r with
    | obj fs => rw [transmitCommandCheck_setKey, transmitCommandCheck_setKey]
    | null => simp [Json.isObject] at hobj
    | bool b => simp [Json.isObject] at hobj
    | num k => simp [Json.isObject] at hobj
    | str s => simp [Json.isObject] at hobj
    | arr xs => simp [Json.isObject] at hobj

/-- C3 witness: the amended statement evaluated at concrete responses. -/
theorem C3_witness :
    transmitCommandCheck (Json.arr []) = Except.error DGError.NotSupportedVersion
    ∧ transmitCommandCheck ((Json.obj []).setKey PROTOCOL_VERSION_TAG (Json.num 1)) =
        transmitCommandCheck ((Json.obj []).setKey PROTOCOL_VERSION_TAG (Json.num 99)) :=
  ⟨(C3_version_check (Json.arr [])).1 rfl,
   (C3_version_check (Json.obj [])).2.2 1 99 rfl⟩

/-- C10: `messagePrepareJson` raises an error on non-objects, returns an
object already carrying `VERSION` unchanged, extends an object without
`VERSION` by `VERSION = CURRENT_PROTOCOL_VERSION` (4), and every
successfully prepared message contains the `VERSION` field. -/
theorem C10_messagePrepare (j : Json) :
    (j.isObject = false → messagePrepareJson j = Except.error DGError.AssertFail)
    ∧ (j.isObject = true → j.containsKey PROTOCOL_VERSION_TAG = true →
        messagePrepareJson j = Except.ok j)
    ∧ (j.isObject = true → j.containsKey PROTOCOL_VERSION_TAG = false →
        messagePrepareJson j =
          Except.ok (j.setKey PROTOCOL_VERSION_TAG (Json.num CURRENT_PROTOCOL_VERSION)))
    ∧ (∀ out, messagePrepareJson j = Except.ok out →
        out.containsKey PROTOCOL_VERSION_TAG = true) := by
  refine ⟨fun h => by simp [messagePrepareJson, h],
    fun ho hc => by simp [messagePrepareJson, ho, hc],
    fun ho hc => by simp [messagePrepareJson, ho, hc],
    fun out hout => ?_⟩
  cases ho : j.isObject with
  | false => simp [messagePrepareJson, ho] at hout
  | true =>
    cases hc : j.containsKey PROTOCOL_VERSION_TAG with
    | true =>
      simp [messagePrepareJson, ho, hc] at hout
      subst hout
      exact hc
    | false =>
      simp [messagePrepareJson, ho, hc] at hout
      subst hout
      cases j with
      | obj fs => exact containsKey_setKey_obj fs _ _
      | null => simp [Json.isObject] at ho
      | bool b => simp [Json.isObject] at ho
      | num k => simp [Json.isObject] at ho
      | str s => simp [Json.isObject] at ho
      | arr xs => simp [Json.isObject] at ho

/-- C10 witness: a concrete command without a `VERSION` field is extended
with `VERSION = 4`, and the prepared message contains the tag. -/
theorem C10_witness :
    messagePrepareJson (Json.obj [("op", Json.str "ping")]) =
      Except.ok ((Json.obj [("op", Json.str "ping")]).setKey PROTOCOL_VERSION_TAG
        (Json.num CURRENT_PROTOCOL_VERSION))
    ∧ ((Json.obj [("op", Json.str "ping")]).setKey PROTOCOL_VERSION_TAG
        (Json.num CURRENT_PROTOCOL_VERSION)).containsKey PROTOCOL_VERSION_TAG = true :=
  ⟨(C10_messagePrepare (Json.obj [("op", Json.str "ping")])).2.2.1 rfl rfl,
   (C10_messagePrepare (Json.obj [("op", Json.str "ping")])).2.2.2 _
     ((C10_messagePrepare (Json.obj [("op", Json.str "ping")])).2.2.1 rfl rfl)⟩

/-! ## Claims about address parsing -/

/-- C8: the three address-parse facts of the specification:
`parse("http://h")` gives host `h`, port 8778, HTTP transport;
`parse("h:9000")` gives host `h`, port 9000, TCP transport;
`parse("asio://h:1")` gives host `h`, port 1, TCP transport. -/
theorem C8_address_parse :
    ServerAddress.fromHostname "http://h".toList =
      ⟨"h".toList, 8778, ServerType.Http⟩
    ∧ ServerAddress.fromHostname "h:9000".toList =
      ⟨"h".toList, 9000, ServerType.Asio⟩
    ∧ ServerAddress.fromHostname "asio://h:1".toList =
      ⟨"h".toList, 1, ServerType.Asio⟩ := by
  refine ⟨by decide, by decide, by decide⟩

/-- C7 counterexample: parsing the empty string (or a scheme-only string)
does not fail with `BadParameter` — `fromHostname` has no error path at
all; it returns an address with an empty host. -/
theorem C7_counterexample :
    parseServerAddress "".toList ≠ Except.error DGError.BadParameter
    ∧ parseServerAddress "http://".toList ≠ Except.error DGError.BadParameter
    ∧ parseServerAddress "asio://".toList ≠ Except.error DGError.BadParameter
    ∧ parseServerAddress "".toList =
        Except.ok ⟨[], DEFAULT_PORT, ServerType.Asio⟩ := by
  refine ⟨fun h => by simp [parseServerAddress] at h,
    fun h => by simp [parseServerAddress] at h,
    fun h => by simp [parseServerAddress] at h, rfl⟩

/-- C7 (amended): parsing never raises; for an empty input or an input
consisting of only a scheme prefix the resulting address has an empty
host, which `is_valid()` reports as invalid — no `BadParameter` error is
produced anywhere on the parsing path of `Client::create`. -/
theorem C7_empty_host (s : List Char)
    (h : s = [] ∨ s = schemeHttp ∨ s = schemeAsio) :
    (ServerAddress.fromHostname s).ip = []
    ∧ (ServerAddress.fromHostname s).is_valid = false
    ∧ parseServerAddress s = Except.ok (ServerAddress.fromHostname s) := by
  rcases h with h | h | h <;> subst h <;> exact ⟨by decide, by decide, rfl⟩

/-- C7 witness: the amended statement at the scheme-only input
`"http://"`. -/
theorem C7_witness :
    (ServerAddress.fromHostname "http://".toList).ip = []
    ∧ (ServerAddress.fromHostname "http://".toList).is_valid = false
    ∧ parseServerAddress "http://".toList =
        Except.ok (ServerAddress.fromHostname "http://".toList) :=
  C7_empty_host "http://".toList (Or.inr (Or.inl (by decide)))

/-! ## Claims about single-shot `predict` -/

/-- C6 counterexample: on the TCP (`ClientAsio`) client with an open
stream and an installed streaming callback, `predict` does not fail with
`IncorrectAPIUse`: a successful server reply completes without any
error. -/
theorem C6_counterexample :
    (asioPredict { stream_open := true, callback_installed := true } "").2 = none
    ∧ ({ stream_open := true, callback_installed := true } : AsioState).callback_installed
        = true :=
  ⟨rfl, rfl⟩

/-- C6 (amended): only the HTTP client rejects single-shot `predict` with
`IncorrectAPIUse` when a streaming callback is installed; the TCP client's
`predict` checks only that the stream socket is open, and with an open
socket — regardless of the installed callback — it stores the reply's
`errorCheck` message into `m_last_error` and fails only on a
server-reported error (`OperationFailed`). -/
theorem C6_predict_mode_check :
    (∀ (s : HttpState) (arrivals1 arrivals2 : List String),
      s.callback_installed = true →
      httpPredict s arrivals1 arrivals2 = (s, some DGError.IncorrectAPIUse))
    ∧ (∀ (s : AsioState) (server_err : String), s.stream_open = false →
      asioPredict s server_err = (s, some DGError.IncorrectAPIUse))
    ∧ (∀ (s : AsioState) (server_err : String), s.stream_open = true →
      asioPredict s server_err =
        ({ s with last_error := server_err },
         if server_err = "" then none else some DGError.OperationFailed)) := by
  refine ⟨fun s a1 a2 h => by simp [httpPredict, h],
    fun s r h => by simp [asioPredict, h],
    fun s r h => ?_⟩
  by_cases hr : r = ""
  · simp [asioPredict, h, hr]
  · simp [asioPredict, h, hr]

/-- C6 witness: the amended statement at concrete client states. -/
theorem C6_witness :
    httpPredict { callback_installed := true } [] [] =
      ({ callback_installed := true }, some DGError.IncorrectAPIUse)
    ∧ asioPredict { stream_open := true, callback_installed := true } "boom" =
        ({ stream_open := true, callback_installed := true, last_error := "boom" },
         some DGError.OperationFailed) :=
  ⟨C6_predict_mode_check.1 { callback_installed := true } [] [] rfl,
   by
     have h := C6_predict_mode_check.2.2
       { stream_open := true, callback_installed := true } "boom" rfl
     rw [if_neg (by decide)] at h
     exact h⟩

/-! ## Helper lemmas about the streaming pipelines -/

theorem httpWaitFor_of_error (s : HttpState) (t : Nat) (arr : List String)
    (h : s.last_error ≠ "") :
    httpWaitFor s t arr = (s, [], WaitOutcome.errorDetected) := by
  cases arr <;> simp [httpWaitFor, h]

theorem httpRecvResult_queue (s : HttpState) (err : String) :
    (httpRecvResult s err).state.frame_info_queue.length ≤ s.frame_info_queue.length
    ∧ (httpRecvResult s err).state.frame_queue_depth = s.frame_queue_depth
    ∧ (httpRecvResult s err).state.ws_open = s.ws_open
    ∧ (httpRecvResult s err).state.callback_installed = s.callback_installed := by
  cases hq : s.frame_info_queue with
  | nil => simp [httpRecvResult, hq]
  | cons fi rest =>
    by_cases he : err = "" <;> simp [httpRecvResult, hq, he, Nat.le_succ]

theorem httpWaitFor_shape (t : Nat) (arr : List String) :
    ∀ s : HttpState,
      (httpWaitFor s t arr).1.frame_info_queue.length ≤ s.frame_info_queue.length
      ∧ (httpWaitFor s t arr).1.frame_queue_depth = s.frame_queue_depth
      ∧ ((httpWaitFor s t arr).2.2 = WaitOutcome.ok →
          (httpWaitFor s t arr).1.frame_info_queue.length ≤ t)
      ∧ ((httpWaitFor s t arr).2.2 = WaitOutcome.ok →
          (httpWaitFor s t arr).1.last_error = "") := by
  induction arr with
  | nil =>
    intro s
    by_cases hc : s.frame_info_queue.length ≤ t ∨ s.last_error ≠ ""
    · by_cases he : s.last_error = "" <;>
        simp_all [httpWaitFor, hc, he]
    · simp [httpWaitFor, hc]
  | cons e rest ih =>
    intro s
    by_cases hc : s.frame_info_queue.length ≤ t ∨ s.last_error ≠ ""
    · by_cases he : s.last_error = "" <;>
        simp_all [httpWaitFor, hc, he]
    · have hr := httpRecvResult_queue s e
      have hi := ih (httpRecvResult s e).state
      simp only [httpWaitFor, hc, if_false, if_neg hc]
      refine ⟨le_trans hi.1 hr.1, hi.2.1.trans hr.2.1, fun ho => hi.2.2.1 ho,
        fun ho => hi.2.2.2 ho⟩

theorem httpWaitFor_thrown (t : Nat) (arr : List String) :
    ∀ (s : HttpState) (e : DGError),
      (httpWaitFor s t arr).2.2 = WaitOutcome.thrown e →
      e = DGError.Timeout ∧ (httpWaitFor s t arr).1.last_error ≠ "" := by
  induction arr with
  | nil =>
    intro s e h
    by_cases he : s.last_error = ""
    · by_cases hc1 : s.frame_info_queue.length ≤ t
      · simp [httpWaitFor, hc1, he] at h
      · simp only [httpWaitFor, hc1, he] at h ⊢
        simp at h ⊢
        exact ⟨h.symm, by decide⟩
    · simp [httpWaitFor, he] at h
  | cons ev rest ih =>
    intro s e h
    by_cases he : s.last_error = ""
    · by_cases hc1 : s.frame_info_queue.length ≤ t
      · simp [httpWaitFor, hc1, he] at h
      · simp only [httpWaitFor, hc1, he] at h ⊢
        simp at h ⊢
        exact ih (httpRecvResult s ev).state e h
    · simp [httpWaitFor, he] at h

theorem asioRecv_fields (s : AsioState) (err : String) :
    (asioDataReceive s err).1.thread_joinable = s.thread_joinable
    ∧ (asioDataReceive s err).1.frame_queue_depth = s.frame_queue_depth
    ∧ (asioDataReceive s err).1.stream_open = s.stream_open
    ∧ (asioDataReceive s err).1.callback_installed = s.callback_installed := by
  by_cases hrp : s.read_pending = false
  · simp [asioDataReceive, hrp]
  · cases hq : s.frame_info_queue with
    | nil => simp [asioDataReceive, hrp, hq]
    | cons fi rest =>
      by_cases he : err = "" <;>
        simp [asioDataReceive, hrp, hq, he] <;> split <;> simp

theorem asioRecv_pres_error (s : AsioState) (err : String)
    (h : s.last_error ≠ "") : (asioDataReceive s err).1.last_error ≠ "" := by
  by_cases hrp : s.read_pending = false
  · simpa [asioDataReceive, hrp] using h
  · cases hq : s.frame_info_queue with
    | nil => simpa [asioDataReceive, hrp, hq] using h
    | cons fi rest =>
      by_cases he : err = ""
      · simp [asioDataReceive, hrp, hq, he]
        split <;> simpa using h
      · simp [asioDataReceive, hrp, hq, he]

theorem asioRecv_pres_stop (s : AsioState) (err : String)
    (h : s.async_stop = true) : (asioDataReceive s err).1.async_stop = true := by
  by_cases hrp : s.read_pending = false
  · simpa [asioDataReceive, hrp] using h
  · cases hq : s.frame_info_queue with
    | nil => simpa [asioDataReceive, hrp, hq] using h
    | cons fi rest =>
      by_cases he : err = ""
      · simp [asioDataReceive, hrp, hq, he]
        split <;> simpa using h
      · simp [asioDataReceive, hrp, hq, he]

theorem asioThreadError_pres (s : AsioState) (msg : String)
    (hmsg : msg ≠ "") (h : s.last_error ≠ "") :
    (asioThreadError s msg).last_error ≠ ""
    ∧ ((asioThreadError s msg).async_stop = true ↔
        (s.async_stop = true ∨ s.thread_joinable = true)) := by
  by_cases hj : s.thread_joinable <;> simp [asioThreadError, hj, hmsg, h]

theorem asioDrain_pres (arr : List String) :
    ∀ s : AsioState,
      ((asioDrain s arr).1.last_error ≠ "" ∨ (asioDrain s arr).1.last_error = s.last_error)
      ∧ ((asioDrain s arr).1.async_stop = true ∨ (asioDrain s arr).1.async_stop = s.async_stop)
      ∧ (asioDrain s arr).1.thread_joinable = s.thread_joinable := by
  induction arr with
  | nil =>
    intro s
    by_cases h0 : s.outstanding = 0
    · simp [asioDrain, h0]
    · by_cases hj : s.thread_joinable = true <;>
        simp [asioDrain, h0, asioThreadError, hj, asioThreadErrMsg]
  | cons e rest ih =>
    intro s
    by_cases h0 : s.outstanding = 0
    · simp [asioDrain, h0]
    · have hr := asioRecv_fields s e
      have hi := ih (asioDataReceive s e).1
      simp only [asioDrain, h0, if_false, if_neg h0]
      refine ⟨?_, ?_, hi.2.2.trans hr.1⟩
      · rcases hi.1 with h | h
        · exact Or.inl h
        · by_cases he : s.last_error = ""
          · rcases Classical.em ((asioDataReceive s e).1.last_error = "") with h2 | h2
            · exact Or.inr (by rw [h, h2, he])
            · exact Or.inl (by rw [h]; exact h2)
          · exact Or.inl (by rw [h]; exact asioRecv_pres_error s e he)
      · rcases hi.2.1 with h | h
        · exact Or.inl h
        · by_cases hs : s.async_stop = true
          · exact Or.inl (by rw [h]; exact asioRecv_pres_stop s e hs)
          · rcases Classical.em ((asioDataReceive s e).1.async_stop = true) with h2 | h2
            · exact Or.inl (by rw [h]; exact h2)
            · refine Or.inr ?_
              rw [h]
              have : s.async_stop = false := by
                revert hs
                cases s.async_stop <;> simp
              rw [this]
              revert h2
              cases (asioDataReceive s e).1.async_stop <;> simp

/-! ## C1: first-error semantics of a streaming session -/

/-- C1: once the first error result is received on a streaming session,
the user callback is invoked for that error result and for no later
already-queued result, `lastError()` is non-empty, and every subsequent
`dataSend` returns without sending its frame and without raising. On the
HTTP client the adapter skips the callback for every result after the
first recorded error; on the TCP client the error receive cancels further
reads (no further `dataReceive` fires), and on both clients a `dataSend`
in the errored state returns `dropped` with the state unchanged. -/
theorem C1_first_error_semantics :
    (∀ (s : HttpState) (err fi : String) (rest : List String),
      s.frame_info_queue = fi :: rest → s.last_error = "" → err ≠ "" →
      (httpRecvResult s err).invoked = true
        ∧ (httpRecvResult s err).state.last_error = err)
    ∧ (∀ (s : HttpState) (err : String), s.last_error ≠ "" →
      (httpRecvResult s err).invoked = false)
    ∧ (∀ (s : HttpState) (fi : String) (arrivals : List String),
      s.ws_open = true → s.callback_installed = true → s.last_error ≠ "" →
      httpDataSend s fi arrivals = (s, [], SendOutcome.dropped))
    ∧ (∀ (s : AsioState) (err fi : String) (rest : List String),
      s.read_pending = true → s.frame_info_queue = fi :: rest → err ≠ "" →
      (asioDataReceive s err).2 = true
        ∧ (asioDataReceive s err).1.last_error = err
        ∧ (asioDataReceive s err).1.async_stop = true
        ∧ (asioDataReceive s err).1.read_pending = false
        ∧ (asioDataReceive s err).1.outstanding = 0)
    ∧ (∀ (s : AsioState) (err : String), s.read_pending = false →
      asioDataReceive s err = (s, false))
    ∧ (∀ (s : AsioState) (fi : String) (arrivals : List String),
      s.stream_open = true → s.callback_installed = true →
      s.async_stop = true → s.last_error ≠ "" →
      asioDataSend s fi arrivals = (s, [], SendOutcome.dropped)) := by
  refine ⟨fun s err fi rest hq he0 he => ?_, fun s err he => ?_,
    fun s fi arr hw hc he => ?_, fun s err fi rest hrp hq he => ?_,
    fun s err hrp => ?_, fun s fi arr ho hc hs he => ?_⟩
  · simp [httpRecvResult, hq, he0, he]
  · cases hq : s.frame_info_queue with
    | nil => simp [httpRecvResult, hq]
    | cons fi rest => simp [httpRecvResult, hq, he]
  · simp [httpDataSend, hw, hc, httpWaitFor_of_error s _ arr he]
  · simp [asioDataReceive, hrp, hq, he]
  · simp [asioDataReceive, hrp]
  · simp [asioDataSend, ho, hc, hs, he]

/-- C1 witness: the first-error semantics evaluated at concrete pipeline
states. -/
theorem C1_witness :
    ((httpRecvResult hsSample "boom").invoked = true
      ∧ (httpRecvResult hsSample "boom").state.last_error = "boom")
    ∧ (httpRecvResult hsErrSample "").invoked = false
    ∧ httpDataSend hsErrSample "b" [] = (hsErrSample, [], SendOutcome.dropped)
    ∧ (asioDataReceive asSample "boom").1.last_error = "boom"
    ∧ asioDataReceive asErrSample "x" = (asErrSample, false)
    ∧ asioDataSend asErrSample "b" [] = (asErrSample, [], SendOutcome.dropped) :=
  ⟨C1_first_error_semantics.1 hsSample "boom" "a" [] rfl rfl (by decide),
   C1_first_error_semantics.2.1 hsErrSample "" (by decide),
   C1_first_error_semantics.2.2.1 hsErrSample "b" [] rfl rfl (by decide),
   (C1_first_error_semantics.2.2.2.1 asSample "boom" "a" [] rfl rfl (by decide)).2.1,
   C1_first_error_semantics.2.2.2.2.1 asErrSample "x" rfl,
   C1_first_error_semantics.2.2.2.2.2 asErrSample "b" [] rfl rfl rfl (by decide)⟩

/-! ## C5: stickiness of `last_error` -/

theorem bool_not_true {b : Bool} (h : ¬b = true) : b = false := by
  cases b with
  | false => rfl
  | true => exact absurd rfl h

theorem asioDataEnd_pres_error (s : AsioState) (arr : List String)
    (h : s.last_error ≠ "") : (asioDataEnd s arr).1.last_error ≠ "" := by
  by_cases hj : s.thread_joinable = true
  · rcases (asioDrain_pres arr { s with async_stop := true }).1 with h2 | h2
    · simp only [asioDataEnd]
      rw [if_pos (by simpa using hj)]
      simpa using h2
    · simp only [asioDataEnd]
      rw [if_pos (by simpa using hj)]
      simp only [h2]
      simpa using h
  · simp only [asioDataEnd]
    rw [if_neg (by simpa using hj)]
    simpa using h

theorem asioDataEnd_stop_joined (s : AsioState) (arr : List String) :
    (asioDataEnd s arr).1.async_stop = true
    ∧ (asioDataEnd s arr).1.thread_joinable = false := by
  by_cases hj : s.thread_joinable = true
  · rcases (asioDrain_pres arr { s with async_stop := true }).2.1 with h2 | h2
    · simp only [asioDataEnd]
      rw [if_pos (by simpa using hj)]
      simp [h2]
    · simp only [asioDataEnd]
      rw [if_pos (by simpa using hj)]
      simp [h2]
  · simp only [asioDataEnd]
    rw [if_neg (by simpa using hj)]
    simpa using bool_not_true hj

theorem httpDataSend_of_error (s : HttpState) (fi : String) (arr : List String)
    (h : s.last_error ≠ "") : (httpDataSend s fi arr).1 = s := by
  by_cases hw : s.ws_open = false
  · simp [httpDataSend, hw]
  · by_cases hc : s.callback_installed = false
    · simp [httpDataSend, hw, hc]
    · simp [httpDataSend, hw, hc, httpWaitFor_of_error s _ arr h]

/-- C5 counterexample: on the TCP (`ClientAsio`) client, `openStream` does
not clear the sticky error — after a server error set `last_error` to
`"boom"`, re-opening the stream leaves `lastError()` equal to `"boom"`. -/
theorem C5_counterexample :
    (asioOpenStream asErrSample 3).last_error = "boom" ∧ "boom" ≠ "" :=
  ⟨rfl, by decide⟩

theorem asioStep_sticky (s : AsioState) (e : AsioEvent) (hmsg : e.errsNonempty)
    (h : s.last_error ≠ "") (hstop : s.async_stop = true) :
    (asioStep s e).last_error ≠ "" ∧ (asioStep s e).async_stop = true := by
  cases e with
  | openStream d => exact ⟨h, hstop⟩
  | observe cb =>
    by_cases hj : s.thread_joinable = true
    · simp only [asioStep, asioResultObserve]
      rw [if_pos hj]
      exact ⟨h, hstop⟩
    · simp only [asioStep, asioResultObserve]
      rw [if_neg hj]
      exact ⟨h, hstop⟩
  | send fi arr =>
    simp only [asioStep, asioDataSend]
    split
    · exact ⟨h, hstop⟩
    · split
      · exact ⟨h, hstop⟩
      · rw [if_pos ⟨hstop, h⟩]
        exact ⟨h, hstop⟩
  | recv err =>
    exact ⟨asioRecv_pres_error s err h, asioRecv_pres_stop s err hstop⟩
  | threadErr m =>
    by_cases hj : s.thread_joinable = true
    · constructor
      · simp only [asioStep, asioThreadError]
        rw [if_pos hj]
        simpa [AsioEvent.errsNonempty] using hmsg
      · simp only [asioStep, asioThreadError]
        rw [if_pos hj]
    · constructor
      · simp only [asioStep, asioThreadError]
        rw [if_neg hj]
        exact h
      · simp only [asioStep, asioThreadError]
        rw [if_neg hj]
        exact hstop
  | drain arr =>
    exact ⟨asioDataEnd_pres_error s arr h, (asioDataEnd_stop_joined s arr).1⟩

theorem httpPredict_pres_error (s : HttpState) (arrivals1 arrivals2 : List String)
    (h : s.last_error ≠ "") : (httpPredict s arrivals1 arrivals2).1.last_error ≠ "" := by
  by_cases hcb : s.callback_installed
  · simpa [httpPredict, hcb] using h
  · have h0 : ({ s with callback_installed := true } : HttpState).last_error ≠ "" := h
    by_cases hw : ({ s with callback_installed := true } : HttpState).ws_open = false
    · simp only [httpPredict, hcb, Bool.false_eq_true, if_false]
      simp only [httpDataSend, if_pos hw]
      simpa using h
    · have hfull : httpDataSend { s with callback_installed := true } "" arrivals1 =
          ({ s with callback_installed := true }, [], SendOutcome.dropped) := by
        simp only [httpDataSend]
        rw [if_neg hw, if_neg (by simp)]
        rw [httpWaitFor_of_error _ _ arrivals1 h0]
      have hend : httpDataEnd { s with callback_installed := true } arrivals2 =
          ({ s with callback_installed := true }, [], WaitOutcome.errorDetected) :=
        httpWaitFor_of_error _ 0 arrivals2 h0
      simp only [httpPredict, hcb, Bool.false_eq_true, if_false, hfull, hend]
      split <;> simpa using h

/-- C5 (amended): on the HTTP client the recorded error is sticky exactly
as claimed — every operation other than `openStream`, the synchronous
`predict` included, keeps `last_error` non-empty, and `openStream` clears
it. On the TCP client a streaming error (which always sets the stop flag
together with the message) persists across every subsequent
streaming-pipeline operation and across `openStream`, which does not clear
it (the error-clearing branch of `dataSend` is unreachable while the stop
flag is set) — with one exception: the synchronous `predict`, which
unconditionally overwrites `m_last_error` with the `errorCheck` result of
its reply and therefore clears the sticky error on a successful reply. -/
theorem C5_sticky_error :
    (∀ (s : HttpState) (e : HttpEvent), e.isOpen = false → s.last_error ≠ "" →
      (httpStep s e).last_error ≠ "")
    ∧ (∀ (s : HttpState) (arrivals1 arrivals2 : List String), s.last_error ≠ "" →
      (httpPredict s arrivals1 arrivals2).1.last_error ≠ "")
    ∧ (∀ (s : HttpState) (d : Nat),
      (httpStep s (HttpEvent.openStream d)).last_error = "")
    ∧ (∀ (s : AsioState) (e : AsioEvent), e.errsNonempty →
      s.last_error ≠ "" → s.async_stop = true →
      (asioOpStep s (AsioOp.stream e)).last_error ≠ ""
        ∧ (asioOpStep s (AsioOp.stream e)).async_stop = true)
    ∧ (∀ (s : AsioState) (server_err : String), s.stream_open = true →
      (asioOpStep s (AsioOp.predictOp server_err)).last_error = server_err
        ∧ (asioOpStep s (AsioOp.predictOp server_err)).async_stop = s.async_stop) := by
  refine ⟨fun s e hne h => ?_, fun s a1 a2 h => httpPredict_pres_error s a1 a2 h,
    fun s d => rfl, fun s e hmsg h hstop => asioStep_sticky s e hmsg h hstop,
    fun s server_err hso => ?_⟩
  · cases e with
    | openStream d => simp [HttpEvent.isOpen] at hne
    | observe cb => simpa [httpStep, httpResultObserve] using h
    | send fi arr => rw [httpStep, httpDataSend_of_error s fi arr h]; exact h
    | recv err =>
      cases hq : s.frame_info_queue with
      | nil => simpa [httpStep, httpRecvResult, hq] using h
      | cons fi rest =>
        by_cases he : err = ""
        · simpa [httpStep, httpRecvResult, hq, he] using h
        · simpa [httpStep, httpRecvResult, hq, he] using he
    | drain arr =>
      rw [httpStep, httpDataEnd, httpWaitFor_of_error s 0 arr h]
      exact h
  · by_cases hr : server_err = "" <;>
      simp [asioOpStep, asioPredict, hso, hr]

/-- C5 witness: stickiness evaluated at the sample errored states,
including the TCP `predict` that clears the sticky error on a successful
reply. -/
theorem C5_witness :
    (httpStep hsErrSample (HttpEvent.send "b" [])).last_error ≠ ""
    ∧ (httpPredict hsErrSample [] []).1.last_error ≠ ""
    ∧ (httpStep hsErrSample (HttpEvent.openStream 3)).last_error = ""
    ∧ (asioOpStep asErrSample (AsioOp.stream (AsioEvent.openStream 3))).last_error ≠ ""
    ∧ (asioOpStep asErrSample (AsioOp.predictOp "")).last_error = "" :=
  ⟨C5_sticky_error.1 hsErrSample (HttpEvent.send "b" []) rfl (by decide),
   C5_sticky_error.2.1 hsErrSample [] [] (by decide),
   C5_sticky_error.2.2.1 hsErrSample 3,
   (C5_sticky_error.2.2.2.1 asErrSample (AsioEvent.openStream 3) trivial
     (by decide) rfl).1,
   (C5_sticky_error.2.2.2.2 asErrSample "" rfl).1⟩

/-! ## C4: behavior of `dataEnd` -/

theorem asioDrain_joinable (arr : List String) :
    ∀ s : AsioState, s.thread_joinable = true →
      (asioDrain s arr).1.outstanding = 0
      ∧ (asioDrain s arr).1.thread_joinable = true := by
  induction arr with
  | nil =>
    intro s hj
    by_cases h0 : s.outstanding = 0
    · simp [asioDrain, h0, hj]
    · simp [asioDrain, h0, asioThreadError, hj]
  | cons e rest ih =>
    intro s hj
    by_cases h0 : s.outstanding = 0
    · simp [asioDrain, h0, hj]
    · have hjr : (asioDataReceive s e).1.thread_joinable = true :=
        (asioRecv_fields s e).1.trans hj
      have hi := ih (asioDataReceive s e).1 hjr
      simp only [asioDrain, h0, if_neg h0]
      exact hi

/-- C4 counterexample: on the HTTP client, `dataEnd` called with one
outstanding frame and no arriving result times out and throws
`ErrTimeout` out of `dataEnd` (while also recording the timeout in
`last_error`) — it does not surface the drain error only through
`lastError()`. -/
theorem C4_counterexample :
    (httpDataEnd hsSample []).2.2 = WaitOutcome.thrown DGError.Timeout
    ∧ (httpDataEnd hsSample []).1.last_error = httpTimeoutMsg := ⟨rfl, rfl⟩

/-- C4 (amended): `ClientAsio::dataEnd` never throws — it always ends with
the stop flag set and the thread joined, errors met during its drain
(including the response timeout) are recorded in `last_error` only, and an
already-recorded sticky error is preserved. `ClientHttp::dataEnd` does not
throw when the sticky error is already set (it returns at once, surfacing
the error only via `lastError()`), but a timeout arising during the drain
itself both records the error and propagates an `ErrTimeout` exception out
of `dataEnd`. -/
theorem C4_dataEnd :
    (∀ (s : HttpState) (arr : List String), s.last_error ≠ "" →
      httpDataEnd s arr = (s, [], WaitOutcome.errorDetected))
    ∧ (∀ (s : HttpState) (arr : List String) (e : DGError),
      (httpDataEnd s arr).2.2 = WaitOutcome.thrown e →
      e = DGError.Timeout ∧ (httpDataEnd s arr).1.last_error ≠ "")
    ∧ (∀ (s : AsioState) (arr : List String),
      (asioDataEnd s arr).1.async_stop = true
        ∧ (asioDataEnd s arr).1.thread_joinable = false)
    ∧ (∀ (s : AsioState) (arr : List String), s.last_error ≠ "" →
      (asioDataEnd s arr).1.last_error ≠ "")
    ∧ (∀ s : AsioState, 0 < s.outstanding → s.thread_joinable = true →
      (asioDataEnd s []).1.last_error = asioThreadErrMsg) := by
  refine ⟨fun s arr h => httpWaitFor_of_error s 0 arr h,
    fun s arr e h => httpWaitFor_thrown 0 arr s e h,
    fun s arr => asioDataEnd_stop_joined s arr,
    fun s arr h => asioDataEnd_pres_error s arr h,
    fun s h0 hj => ?_⟩
  have h1 : ¬s.outstanding = 0 := Nat.pos_iff_ne_zero.mp h0
  simp only [asioDataEnd]
  rw [if_pos (by simpa using hj)]
  simp [asioDrain, h1, asioThreadError, hj]

/-- C4 witness: `dataEnd` evaluated at concrete errored and pending
states. -/
theorem C4_witness :
    httpDataEnd hsErrSample ["x"] = (hsErrSample, [], WaitOutcome.errorDetected)
    ∧ ((httpDataEnd hsSample []).2.2 = WaitOutcome.thrown DGError.Timeout →
        DGError.Timeout = DGError.Timeout ∧ (httpDataEnd hsSample []).1.last_error ≠ "")
    ∧ ((asioDataEnd asSample ["boom"]).1.async_stop = true
        ∧ (asioDataEnd asSample ["boom"]).1.thread_joinable = false)
    ∧ (asioDataEnd asErrSample []).1.last_error ≠ ""
    ∧ (asioDataEnd asSample []).1.last_error = asioThreadErrMsg :=
  ⟨C4_dataEnd.1 hsErrSample ["x"] (by decide),
   fun h => C4_dataEnd.2.1 hsSample [] DGError.Timeout h,
   C4_dataEnd.2.2.1 asSample ["boom"],
   C4_dataEnd.2.2.2.1 asErrSample [] (by decide),
   C4_dataEnd.2.2.2.2 asSample (by decide) rfl⟩

/-! ## C2: the bounded-window invariant -/

theorem sizeSub1_eq (D : Nat) (h1 : 1 ≤ D) (h2 : D < 2 ^ 64) :
    sizeSub1 D = D - 1 := by
  unfold sizeSub1
  omega

theorem httpStep_inv (D : Nat) (h1 : 1 ≤ D) (h2 : D < 2 ^ 64) (s : HttpState)
    (e : HttpEvent) (hne : e.isOpen = false) (hs : HttpInv D s) :
    HttpInv D (httpStep s e) := by
  obtain ⟨hd, hl⟩ := hs
  cases e with
  | openStream d => simp [HttpEvent.isOpen] at hne
  | observe cb => exact ⟨hd, hl⟩
  | recv err =>
    have hr := httpRecvResult_queue s err
    exact ⟨hr.2.1.trans hd, le_trans hr.1 hl⟩
  | drain arr =>
    have hw := httpWaitFor_shape 0 arr s
    exact ⟨hw.2.1.trans hd, le_trans hw.1 hl⟩
  | send fi arr =>
    by_cases hw : s.ws_open = false
    · exact ⟨by simp [httpStep, httpDataSend, hw, hd], by simp [httpStep, httpDataSend, hw, hl]⟩
    · by_cases hc : s.callback_installed = false
      · exact ⟨by simp [httpStep, httpDataSend, hw, hc, hd],
          by simp [httpStep, httpDataSend, hw, hc, hl]⟩
      · have hwf := httpWaitFor_shape (sizeSub1 s.frame_queue_depth) arr s
        simp only [httpStep, httpDataSend]
        rw [if_neg hw, if_neg hc]
        rcases hm : httpWaitFor s (sizeSub1 s.frame_queue_depth) arr with ⟨s1, cbs, out⟩
        rw [hm] at hwf
        cases out with
        | ok =>
          have hbound : s1.frame_info_queue.length ≤ D - 1 := by
            have := hwf.2.2.1 rfl
            rw [hd, sizeSub1_eq D h1 h2] at this
            exact this
          refine ⟨by simpa using hwf.2.1.trans hd, ?_⟩
          simp only [List.length_append, List.length_cons, List.length_nil]
          omega
        | errorDetected => exact ⟨hwf.2.1.trans hd, le_trans hwf.1 hl⟩
        | thrown e1 => exact ⟨hwf.2.1.trans hd, le_trans hwf.1 hl⟩

theorem asioRecv_inv (D : Nat) (s : AsioState) (err : String)
    (hs : AsioInv D s) : AsioInv D (asioDataReceive s err).1 := by
  obtain ⟨hd, ho, hstop, hjo⟩ := hs
  by_cases hrp : s.read_pending = false
  · simpa [asioDataReceive, hrp] using ⟨hd, ho, hstop, hjo⟩
  · cases hq : s.frame_info_queue with
    | nil => simpa [asioDataReceive, hrp, hq] using ⟨hd, ho, hstop, hjo⟩
    | cons fi rest =>
      by_cases he : err = ""
      · simp only [asioDataReceive, hrp, if_neg hrp, hq, he]
        refine ⟨?_, ?_, ?_, ?_⟩ <;> simp [he] <;> split <;> simp
        · exact hd
        · exact hd
        · omega
        · omega
        · intro hst
          rcases hstop hst with ⟨h0, hx⟩
          exact ⟨by omega, hx⟩
        · intro hst
          rcases hstop hst with ⟨h0, hx⟩
          exact ⟨by omega, hx⟩
        · intro hge
          exact hjo (by omega)
        · intro hge
          exact hjo (by omega)
      · simp only [asioDataReceive, hrp, if_neg hrp, hq]
        rw [if_pos he]
        refine ⟨?_, ?_, ?_, ?_⟩ <;> simp [he]
        exact hd

theorem asioSendWait_inv (D : Nat) (arr : List String) :
    ∀ s : AsioState, AsioInv D s →
      AsioInv D (asioSendWait s arr).1
      ∧ ((asioSendWait s arr).2.2 = AsioWaitOutcome.proceed →
          ((asioSendWait s arr).1.outstanding < D
            ∨ (asioSendWait s arr).1.async_stop = true)) := by
  induction arr with
  | nil =>
    intro s hs
    by_cases hc : s.outstanding < s.frame_queue_depth ∨ s.async_stop = true
    · refine ⟨by simpa [asioSendWait, hc] using hs, fun _ => ?_⟩
      simp only [asioSendWait, if_pos hc]
      rcases hc with hc | hc
      · exact Or.inl (hs.1 ▸ hc)
      · exact Or.inr hc
    · exact ⟨by simpa [asioSendWait, hc] using hs,
        by simp [asioSendWait, hc]⟩
  | cons e rest ih =>
    intro s hs
    by_cases hc : s.outstanding < s.frame_queue_depth ∨ s.async_stop = true
    · refine ⟨by simpa [asioSendWait, hc] using hs, fun _ => ?_⟩
      simp only [asioSendWait, if_pos hc]
      rcases hc with hc | hc
      · exact Or.inl (hs.1 ▸ hc)
      · exact Or.inr hc
    · have hi := ih (asioDataReceive s e).1 (asioRecv_inv D s e hs)
      simpa [asioSendWait, hc] using hi

theorem asioDataSend_inv (D : Nat) (h1 : 1 ≤ D) (s : AsioState)
    (fi : String) (arr : List String) (hs : AsioInv D s) :
    AsioInv D (asioDataSend s fi arr).1 := by
  by_cases hso : s.stream_open = false
  · simpa [asioDataSend, hso] using hs
  · by_cases hcb : s.callback_installed = false
    · simpa [asioDataSend, hso, hcb] using hs
    · by_cases hdrop : s.async_stop = true ∧ s.last_error ≠ ""
      · simpa [asioDataSend, hso, hcb, hdrop] using hs
      · simp only [asioDataSend]
        rw [if_neg hso, if_neg hcb, if_neg hdrop]
        rcases hm : asioSendWait s arr with ⟨s1, cbs, out⟩
        have hw1 : AsioInv D s1 := by
          have h := (asioSendWait_inv D arr s hs).1
          rw [hm] at h
          exact h
        have hp : out = AsioWaitOutcome.proceed →
            (s1.outstanding < D ∨ s1.async_stop = true) := by
          intro hpr
          have h := (asioSendWait_inv D arr s hs).2
          rw [hm] at h
          exact h hpr
        cases out with
        | timedOut => exact hw1
        | proceed =>
          obtain ⟨hd1, ho1, hstop1, hjo1⟩ := hw1
          by_cases hdrop1 : s1.async_stop = true ∧ s1.last_error ≠ ""
          · simp only [if_pos hdrop1]
            exact ⟨hd1, ho1, hstop1, hjo1⟩
          · simp only [if_neg hdrop1]
            have hout : s1.outstanding < D := by
              rcases hp rfl with h | h
              · exact h
              · rcases hstop1 h with ⟨h0, hx⟩
                omega
            by_cases hone : s1.outstanding + 1 = 1
            · cases hjb : s1.thread_joinable with
              | false =>
                refine ⟨by simp [hone, hjb]; exact hd1,
                  by simp [hone, hjb]; omega, by simp [hone, hjb],
                  by simp [hone, hjb]⟩
              | true =>
                have hstop2 : s1.async_stop = false := by
                  cases hx : s1.async_stop with
                  | false => rfl
                  | true =>
                    rcases hstop1 hx with ⟨h0, herr | hj2⟩
                    · exact absurd ⟨hx, herr⟩ hdrop1
                    · rw [hjb] at hj2
                      exact absurd hj2 (by simp)
                refine ⟨by simp [hone, hjb]; exact hd1,
                  by simp [hone, hjb]; omega, by simp [hone, hjb, hstop2],
                  by simp [hone, hjb]⟩
            · cases hjb : s1.thread_joinable with
              | false =>
                refine ⟨by simp [hone, hjb]; exact hd1,
                  by simp [hone, hjb]; omega, by simp [hone, hjb],
                  by simp [hone, hjb]⟩
              | true =>
                have hstop2 : s1.async_stop = false := by
                  cases hx : s1.async_stop with
                  | false => rfl
                  | true =>
                    rcases hstop1 hx with ⟨h0, herr | hj2⟩
                    · exact absurd ⟨hx, herr⟩ hdrop1
                    · rw [hjb] at hj2
                      exact absurd hj2 (by simp)
                refine ⟨by simp [hone, hjb]; exact hd1,
                  by simp [hone, hjb]; omega, by simp [hone, hjb, hstop2],
                  by simp [hone, hjb]⟩

theorem asioDrain_depth (a : List String) :
    ∀ t : AsioState, (asioDrain t a).1.frame_queue_depth = t.frame_queue_depth := by
  induction a with
  | nil =>
    intro t
    by_cases h0 : t.outstanding = 0
    · simp [asioDrain, h0]
    · by_cases hjt : t.thread_joinable = true <;>
        simp [asioDrain, h0, asioThreadError, hjt]
  | cons x xs ih =>
    intro t
    by_cases h0 : t.outstanding = 0
    · simp [asioDrain, h0]
    · simp only [asioDrain, if_neg h0]
      rw [ih]
      exact (asioRecv_fields t x).2.1

theorem asioDataEnd_depth (s : AsioState) (arr : List String) :
    (asioDataEnd s arr).1.frame_queue_depth = s.frame_queue_depth := by
  by_cases hj : s.thread_joinable = true
  · simp only [asioDataEnd]
    rw [if_pos (by simpa using hj)]
    simpa using asioDrain_depth arr { s with async_stop := true }
  · simp only [asioDataEnd]
    rw [if_neg (by simpa using hj)]

theorem asioDataEnd_out_zero (s : AsioState) (arr : List String)
    (hjo : 1 ≤ s.outstanding → s.thread_joinable = true) :
    (asioDataEnd s arr).1.outstanding = 0 := by
  by_cases hj : s.thread_joinable = true
  · simp only [asioDataEnd]
    rw [if_pos (by simpa using hj)]
    simpa using (asioDrain_joinable arr { s with async_stop := true }
      (by simpa using hj)).1
  · have h0 : s.outstanding = 0 := by
      by_cases hz : s.outstanding = 0
      · exact hz
      · exact absurd (hjo (Nat.pos_iff_ne_zero.mpr hz)) hj
    simp only [asioDataEnd]
    rw [if_neg (by simpa using hj)]
    simpa using h0

theorem asioStep_inv (D : Nat) (h1 : 1 ≤ D) (s : AsioState) (e : AsioEvent)
    (hne : e.isOpen = false) (hnm : e.errsNonempty) (hs : AsioInv D s) :
    AsioInv D (asioStep s e) := by
  obtain ⟨hd, ho, hstop, hjo⟩ := hs
  cases e with
  | openStream d => simp [AsioEvent.isOpen] at hne
  | observe cb =>
    by_cases hj : s.thread_joinable = true
    · simp only [asioStep, asioResultObserve]
      rw [if_pos hj]
      exact ⟨hd, ho, hstop, hjo⟩
    · simp only [asioStep, asioResultObserve]
      rw [if_neg hj]
      exact ⟨hd, ho, hstop, hjo⟩
  | recv err => exact asioRecv_inv D s err ⟨hd, ho, hstop, hjo⟩
  | send fi arr => exact asioDataSend_inv D h1 s fi arr ⟨hd, ho, hstop, hjo⟩
  | threadErr m =>
    have hm : m ≠ "" := hnm
    by_cases hj : s.thread_joinable = true
    · simp only [asioStep, asioThreadError]
      rw [if_pos hj]
      exact ⟨hd, by simp, fun _ => by simp [hm], by simp⟩
    · simp only [asioStep, asioThreadError]
      rw [if_neg hj]
      exact ⟨hd, ho, hstop, hjo⟩
  | drain arr =>
    have hsj := asioDataEnd_stop_joined s arr
    have h0 := asioDataEnd_out_zero s arr hjo
    refine ⟨by simpa [asioStep] using (asioDataEnd_depth s arr).trans hd, ?_,
      fun _ => ⟨by simpa [asioStep] using h0, Or.inr (by simpa [asioStep] using hsj.2)⟩,
      fun hg => ?_⟩
    · simp only [asioStep]
      rw [h0]
      exact Nat.zero_le D
    · simp only [asioStep] at hg
      rw [h0] at hg
      exact absurd hg (by omega)

theorem httpRun_inv (D : Nat) (h1 : 1 ≤ D) (h2 : D < 2 ^ 64)
    (evs : List HttpEvent) :
    ∀ s : HttpState, HttpInv D s → (∀ e ∈ evs, e.isOpen = false) →
      HttpInv D (httpRun s evs) := by
  induction evs with
  | nil => intro s hs _; exact hs
  | cons e rest ih =>
    intro s hs hne
    exact ih (httpStep s e)
      (httpStep_inv D h1 h2 s e (hne e (List.mem_cons_self e rest)) hs)
      (fun x hx => hne x (List.mem_cons_of_mem e hx))

theorem asioRun_inv (D : Nat) (h1 : 1 ≤ D) (evs : List AsioEvent) :
    ∀ s : AsioState, AsioInv D s →
      (∀ e ∈ evs, e.isOpen = false ∧ e.errsNonempty) →
      AsioInv D (asioRun s evs) := by
  induction evs with
  | nil => intro s hs _; exact hs
  | cons e rest ih =>
    intro s hs hne
    exact ih (asioStep s e)
      (asioStep_inv D h1 s e (hne e (List.mem_cons_self e rest)).1
        (hne e (List.mem_cons_self e rest)).2 hs)
      (fun x hx => hne x (List.mem_cons_of_mem e hx))

/-- C2 counterexample: on the HTTP client, `openStream` clears neither the
frame-info queue nor shrinks it to the new depth. After a session of depth
5 ends with a server error while four frames are still queued, re-opening
the stream with depth `D = 1` reaches a state in which the number of
pending frames (4) exceeds the depth fixed at `openStream` (1). -/
theorem C2_counterexample :
    (httpRun {} c2HttpTrace).frame_queue_depth = 1
    ∧ (httpRun {} c2HttpTrace).frame_info_queue.length = 4
    ∧ ¬((httpRun {} c2HttpTrace).frame_info_queue.length ≤
        (httpRun {} c2HttpTrace).frame_queue_depth) :=
  ⟨rfl, rfl, by decide⟩

/-- C2 (amended): within a single streaming session — from a state whose
pending queue respects the depth `D ≥ 1` fixed by the last `openStream`,
over any sequence of operations not containing another `openStream` (and,
on the TCP client, whose receiving-thread error messages are non-empty) —
the number of pending frames never exceeds `D`: on the HTTP client the
frame-info queue length stays at most `D`, and on the TCP client the
outstanding-results counter stays at most `D`; `dataSend` blocks (consumes
arriving results, errors, or times out) instead of enqueueing past the
window. -/
theorem C2_bounded_window :
    (∀ (D : Nat) (s0 : HttpState) (evs : List HttpEvent),
      1 ≤ D → D < 2 ^ 64 → s0.frame_queue_depth = D →
      s0.frame_info_queue.length ≤ D →
      (∀ e ∈ evs, e.isOpen = false) →
      (httpRun s0 evs).frame_info_queue.length ≤ D)
    ∧ (∀ (D : Nat) (s0 : AsioState) (evs : List AsioEvent),
      1 ≤ D → AsioInv D s0 →
      (∀ e ∈ evs, e.isOpen = false ∧ e.errsNonempty) →
      (asioRun s0 evs).outstanding ≤ D) :=
  ⟨fun D s0 evs h1 h2 hd hl hno => (httpRun_inv D h1 h2 evs s0 ⟨hd, hl⟩ hno).2,
   fun D s0 evs h1 hs hno => (asioRun_inv D h1 evs s0 hs hno).2.1⟩

/-- C2 witness: the bound evaluated on a depth-2 session that posts two
frames on each client. -/
theorem C2_witness :
    (httpRun { callback_installed := true, ws_open := true, frame_queue_depth := 2 }
      [HttpEvent.send "f1" [], HttpEvent.send "f2" []]).frame_info_queue.length ≤ 2
    ∧ (asioRun { stream_open := true, callback_installed := true, frame_queue_depth := 2 }
      [AsioEvent.send "f1" [], AsioEvent.send "f2" []]).outstanding ≤ 2 :=
  ⟨C2_bounded_window.1 2
      { callback_installed := true, ws_open := true, frame_queue_depth := 2 }
      [HttpEvent.send "f1" [], HttpEvent.send "f2" []]
      (by norm_num) (by norm_num) rfl (by simp)
      (by
        intro e he
        cases he with
        | head => rfl
        | tail _ he2 =>
          cases he2 with
          | head => rfl
          | tail _ he3 => cases he3),
   C2_bounded_window.2 2
      { stream_open := true, callback_installed := true, frame_queue_depth := 2 }
      [AsioEvent.send "f1" [], AsioEvent.send "f2" []]
      (by norm_num) ⟨rfl, by norm_num, by simp, by simp⟩
      (by
        intro e he
        cases he with
        | head => exact ⟨rfl, trivial⟩
        | tail _ he2 =>
          cases he2 with
          | head => exact ⟨rfl, trivial⟩
          | tail _ he3 => cases he3)⟩

/-! ## C9: the address round-trip law -/

theorem decimalDigit_isDigit (d : Nat) : (decimalDigit d).isDigit = true := by
  rcases d with _|_|_|_|_|_|_|_|_|d <;> rfl

theorem isDigit_ne (c x : Char) (h : c.isDigit = true) (hx : x.isDigit = false) :
    c ≠ x := by
  intro he
  rw [he, hx] at h
  exact Bool.noConfusion h

theorem decimalDigit_toNat (d : Nat) (h : d < 10) :
    (decimalDigit d).toNat - 48 = d := by
  interval_cases d <;> rfl

theorem natToCharsFuel_lt10 (fuel n : Nat) (acc : List Char) (h : n < 10) :
    natToCharsFuel fuel n acc = decimalDigit n :: acc := by
  cases fuel with
  | zero => rfl
  | succ f => simp [natToCharsFuel, h]

theorem natToCharsFuel_acc (fuel : Nat) :
    ∀ n acc, natToCharsFuel fuel n acc = natToCharsFuel fuel n [] ++ acc := by
  induction fuel with
  | zero => intro n acc; rfl
  | succ f ih =>
    intro n acc
    by_cases h : n < 10
    · simp [natToCharsFuel, h]
    · simp only [natToCharsFuel, h, if_false]
      rw [ih (n / 10) (decimalDigit (n % 10) :: acc),
        ih (n / 10) [decimalDigit (n % 10)]]
      simp

theorem natToCharsFuel_congr : ∀ (n fuel1 fuel2 : Nat) (acc : List Char),
    n ≤ fuel1 → n ≤ fuel2 →
    natToCharsFuel fuel1 n acc = natToCharsFuel fuel2 n acc := by
  intro n
  induction n using Nat.strong_induction_on with
  | _ n ih =>
    intro fuel1 fuel2 acc h1 h2
    by_cases h : n < 10
    · rw [natToCharsFuel_lt10 _ _ _ h, natToCharsFuel_lt10 _ _ _ h]
    · cases fuel1 with
      | zero => omega
      | succ f1 =>
        cases fuel2 with
        | zero => omega
        | succ f2 =>
          simp only [natToCharsFuel, h, if_false]
          exact ih (n / 10) (by omega) f1 f2 _ (by omega) (by omega)

theorem natToChars_lt10 (n : Nat) (h : n < 10) :
    natToChars n = [decimalDigit n] :=
  natToCharsFuel_lt10 n n [] h

theorem natToChars_ge10 (n : Nat) (h : ¬n < 10) :
    natToChars n = natToChars (n / 10) ++ [decimalDigit (n % 10)] := by
  obtain ⟨f, hf⟩ : ∃ f, n = f + 1 := ⟨n - 1, by omega⟩
  calc natToChars n = natToCharsFuel n n [] := rfl
    _ = natToCharsFuel f (n / 10) [decimalDigit (n % 10)] := by
        rw [hf]
        simp only [natToCharsFuel]
        rw [if_neg (by omega)]
    _ = natToCharsFuel (n / 10) (n / 10) [decimalDigit (n % 10)] :=
        natToCharsFuel_congr (n / 10) f (n / 10) _ (by omega) le_rfl
    _ = natToChars (n / 10) ++ [decimalDigit (n % 10)] := by
        rw [natToCharsFuel_acc]
        rfl

theorem natToChars_all_digit (n : Nat) :
    ∀ c ∈ natToChars n, c.isDigit = true := by
  induction n using Nat.strong_induction_on with
  | _ n ih =>
    by_cases h : n < 10
    · rw [natToChars_lt10 n h]
      intro c hc
      simp at hc
      rw [hc]
      exact decimalDigit_isDigit n
    · rw [natToChars_ge10 n h]
      intro c hc
      rcases List.mem_append.mp hc with hc | hc
      · exact ih (n / 10) (Nat.div_lt_self (by omega) (by norm_num)) c hc
      · simp at hc
        rw [hc]
        exact decimalDigit_isDigit (n % 10)

theorem natToChars_ne_nil (n : Nat) : natToChars n ≠ [] := by
  by_cases h : n < 10
  · rw [natToChars_lt10 n h]
    simp
  · rw [natToChars_ge10 n h]
    simp

theorem atoiDigits_append (xs : List Char) :
    ∀ (ys : List Char) (acc : Nat), (∀ c ∈ xs, c.isDigit = true) →
      atoiDigits (xs ++ ys) acc = atoiDigits ys (atoiDigits xs acc) := by
  induction xs with
  | nil => intro ys acc _; rfl
  | cons c t ih =>
    intro ys acc hall
    have hc : c.isDigit = true := hall c (List.mem_cons_self c t)
    simp only [List.cons_append, atoiDigits, hc, if_true]
    exact ih ys _ (fun x hx => hall x (List.mem_cons_of_mem c hx))

theorem atoiDigits_natToChars (n : Nat) :
    atoiDigits (natToChars n) 0 = n := by
  induction n using Nat.strong_induction_on with
  | _ n ih =>
    by_cases h : n < 10
    · rw [natToChars_lt10 n h]
      simp [atoiDigits, decimalDigit_isDigit n, decimalDigit_toNat n h]
    · rw [natToChars_ge10 n h,
        atoiDigits_append (natToChars (n / 10)) [decimalDigit (n % 10)] 0
          (natToChars_all_digit (n / 10)),
        ih (n / 10) (Nat.div_lt_self (by omega) (by norm_num))]
      have hm : n % 10 < 10 := Nat.mod_lt n (by norm_num)
      have hms : atoiDigits [decimalDigit (n % 10)] (n / 10) =
          n / 10 * 10 + ((decimalDigit (n % 10)).toNat - 48) := by
        simp [atoiDigits, decimalDigit_isDigit (n % 10)]
      rw [hms, decimalDigit_toNat (n % 10) hm]
      omega

theorem natToChars_head (n : Nat) :
    ∃ d t, natToChars n = decimalDigit d :: t := by
  induction n using Nat.strong_induction_on with
  | _ n ih =>
    by_cases h : n < 10
    · exact ⟨n, [], natToChars_lt10 n h⟩
    · obtain ⟨d, t, ht⟩ := ih (n / 10) (Nat.div_lt_self (by omega) (by norm_num))
      refine ⟨d, t ++ [decimalDigit (n % 10)], ?_⟩
      rw [natToChars_ge10 n h, ht]
      rfl

theorem isSpaceC_decimalDigit (d : Nat) : isSpaceC (decimalDigit d) = false := by
  rcases d with _|_|_|_|_|_|_|_|_|d <;> rfl

theorem intOfInt32_id (i : Int) (h0 : 0 ≤ i) (h1 : i < 2 ^ 31) :
    intOfInt32 i = i := by
  unfold intOfInt32
  omega

theorem atoiChars_natToChars (n : Nat) (hn : n < 2 ^ 31) :
    atoiChars (natToChars n) = (n : Int) := by
  obtain ⟨d, t, hct⟩ := natToChars_head n
  have hdig : (decimalDigit d).isDigit = true := decimalDigit_isDigit d
  have hs : isSpaceC (decimalDigit d) = false := isSpaceC_decimalDigit d
  have hm : decimalDigit d ≠ '-' := isDigit_ne _ '-' hdig (by decide)
  have hp : decimalDigit d ≠ '+' := isDigit_ne _ '+' hdig (by decide)
  rw [hct]
  simp only [atoiChars, List.dropWhile_cons, hs, Bool.false_eq_true, if_false,
    hm, hp]
  rw [← hct, atoiDigits_natToChars n]
  exact intOfInt32_id (n : Int) (by omega) (by exact_mod_cast hn)

/-- The truncating `int` conversion makes the port round-trip fail beyond
the representable range: the numeral of `2 ^ 31` is parsed back as
`-(2 ^ 31)`. -/
theorem atoiChars_int_overflow :
    atoiChars (natToChars (2 ^ 31)) = -(2 ^ 31) := by decide


theorem strRfind_none (s : List Char) (c : Char) (h : ∀ x ∈ s, x ≠ c) :
    strRfind s c = none := by
  induction s with
  | nil => rfl
  | cons a t ih =>
    have ha : a ≠ c := h a (List.mem_cons_self a t)
    rw [strRfind, ih (fun x hx => h x (List.mem_cons_of_mem a hx))]
    simp [ha]

theorem strRfind_last (xs ys : List Char) (c : Char) (h : ∀ x ∈ ys, x ≠ c) :
    strRfind (xs ++ c :: ys) c = some xs.length := by
  induction xs with
  | nil =>
    rw [List.nil_append, strRfind, strRfind_none ys c h]
    simp
  | cons a t ih =>
    rw [List.cons_append, strRfind, ih]
    rfl

theorem strFind_isPrefixOf (s pat : List Char) (h : pat.isPrefixOf s = true) :
    strFind s pat = some 0 := by
  cases s with
  | nil => rw [strFind]; simp [h]
  | cons a t => rw [strFind]; simp [h]

theorem strFind_none_not_isPrefixOf (s pat : List Char)
    (h : strFind s pat = none) : pat.isPrefixOf s = false := by
  cases s with
  | nil =>
    rw [strFind] at h
    by_cases hp : pat.isPrefixOf ([] : List Char) = true
    · simp [hp] at h
    · exact bool_not_true hp
  | cons a t =>
    rw [strFind] at h
    by_cases hp : pat.isPrefixOf (a :: t) = true
    · simp [hp] at h
    · exact bool_not_true hp

theorem strFind_cons_none (a : Char) (s pat : List Char)
    (hp : pat.isPrefixOf (a :: s) = false) (h : strFind s pat = none) :
    strFind (a :: s) pat = none := by
  rw [strFind]
  simp [hp, h]

theorem not_isPrefixOf_http (x : Char) (l : List Char) (hx : x ≠ 'h') :
    schemeHttp.isPrefixOf (x :: l) = false := by
  show List.isPrefixOf ('h' :: "ttp://".toList) (x :: l) = false
  rw [List.isPrefixOf]
  simp [beq_eq_false_iff_ne]
  intro he
  exact absurd he.symm hx

theorem not_isPrefixOf_asio (x : Char) (l : List Char) (hx : x ≠ 'a') :
    schemeAsio.isPrefixOf (x :: l) = false := by
  show List.isPrefixOf ('a' :: "sio://".toList) (x :: l) = false
  rw [List.isPrefixOf]
  simp [beq_eq_false_iff_ne]
  intro he
  exact absurd he.symm hx

theorem strFind_http_in_asio (rest : List Char)
    (h : strFind rest schemeHttp = none) :
    strFind (schemeAsio ++ rest) schemeHttp = none := by
  show strFind ('a' :: 's' :: 'i' :: 'o' :: ':' :: '/' :: '/' :: rest) schemeHttp = none
  apply strFind_cons_none _ _ _ (not_isPrefixOf_http 'a' _ (by decide))
  apply strFind_cons_none _ _ _ (not_isPrefixOf_http 's' _ (by decide))
  apply strFind_cons_none _ _ _ (not_isPrefixOf_http 'i' _ (by decide))
  apply strFind_cons_none _ _ _ (not_isPrefixOf_http 'o' _ (by decide))
  apply strFind_cons_none _ _ _ (not_isPrefixOf_http ':' _ (by decide))
  apply strFind_cons_none _ _ _ (not_isPrefixOf_http '/' _ (by decide))
  exact strFind_cons_none _ _ _ (not_isPrefixOf_http '/' _ (by decide)) h

theorem prefixScan_http (rest : List Char) :
    prefixScan (schemeHttp ++ rest) prefixTable = (rest, ServerType.Http) := by
  simp only [prefixTable, prefixScan,
    strFind_isPrefixOf _ _ (List.isPrefixOf_iff_prefix.mpr (List.prefix_append _ _))]
  have h7 : schemeHttp.length = 7 := rfl
  simp [← h7, List.drop_left]

theorem prefixScan_asio (rest : List Char)
    (hno : strFind rest schemeHttp = none) :
    prefixScan (schemeAsio ++ rest) prefixTable = (rest, ServerType.Asio) := by
  simp only [prefixTable, prefixScan, strFind_http_in_asio rest hno,
    strFind_isPrefixOf _ _ (List.isPrefixOf_iff_prefix.mpr (List.prefix_append _ _))]
  have h7 : schemeAsio.length = 7 := rfl
  simp [← h7, List.drop_left]

theorem prefixScan_plain (s : List Char) (h1 : strFind s schemeHttp = none)
    (h2 : strFind s schemeAsio = none) :
    prefixScan s prefixTable = (s, ServerType.Asio) := by
  simp only [prefixTable, prefixScan, h1, h2]

theorem natToChars_ne_colon (p : Nat) : ∀ x ∈ natToChars p, x ≠ ':' :=
  fun x hx => isDigit_ne x ':' (natToChars_all_digit p x hx) (by decide)

theorem intToChars_ofNat (p : Nat) : intToChars (p : Int) = natToChars p := by
  rw [intToChars, if_neg (by omega)]
  simp

theorem fromHostname_of_scan (s host : List Char) (oport : Option Nat)
    (ty : ServerType) (hcolon : ∀ c ∈ host, c ≠ ':')
    (hport : ∀ p, oport = some p → p < 2 ^ 31)
    (hscan : prefixScan s prefixTable = (host ++ portSuffix oport, ty)) :
    ServerAddress.fromHostname s =
      ⟨host, (match oport with | some p => (p : Int) | none => DEFAULT_PORT), ty⟩ := by
  cases oport with
  | none =>
    simp only [portSuffix, List.append_nil] at hscan
    simp only [ServerAddress.fromHostname, hscan,
      strRfind_none host ':' hcolon]
  | some p =>
    simp only [portSuffix] at hscan
    have ht : (host ++ ':' :: natToChars p).take host.length = host :=
      List.take_left host (':' :: natToChars p)
    have hd : (host ++ ':' :: natToChars p).drop (host.length + 1) = natToChars p := by
      have he : host ++ ':' :: natToChars p = (host ++ [':']) ++ natToChars p := by
        simp
      have hl : host.length + 1 = (host ++ [':']).length := by simp
      rw [he, hl, List.drop_left]
    simp only [ServerAddress.fromHostname, hscan,
      strRfind_last host (natToChars p) ':' (natToChars_ne_colon p),
      ht, hd, atoiChars_natToChars p (hport p rfl)]

theorem default_port_chars : intToChars DEFAULT_PORT = natToChars 8778 := by decide

/-- C9 counterexample: for the input `"h:x"`, whose port suffix is not
numeric, `atoi` yields 0 and the printed address is `"h:0"`, which differs
from the input although none of the three named normalizations applies to
it — the round-trip law does not hold for every string. -/
theorem C9_counterexample :
    ServerAddress.toChars (ServerAddress.fromHostname "h:x".toList) = "h:0".toList
    ∧ normSpec "h:x".toList = "h:x".toList
    ∧ ServerAddress.toChars (ServerAddress.fromHostname "h:x".toList) ≠
        normSpec "h:x".toList :=
  ⟨by decide, by decide, by decide⟩

/-- C9 (amended): for every server-address string built from an optional
scheme prefix (`http://` or `asio://`), a host containing no `:` and no
occurrence of either scheme string, and an optional `:port` suffix whose
port is a canonically rendered decimal number, printing the parsed address
equals the input up to normalization: the default port is made explicit as
`:8778`, the `http://` prefix is preserved, and the `asio://` prefix is
elided. The port must be representable in the 32-bit `int` returned by
`atoi` (every real TCP port is); beyond that range the truncating
conversion breaks the law (`atoiChars_int_overflow`), as do strings
outside this class, e.g. non-numeric ports. -/
theorem C9_roundtrip (pre host : List Char) (oport : Option Nat)
    (hpre : pre = [] ∨ pre = schemeHttp ∨ pre = schemeAsio)
    (hcolon : ∀ c ∈ host, c ≠ ':')
    (hport : ∀ p, oport = some p → p < 2 ^ 31)
    (hnohttp : strFind (host ++ portSuffix oport) schemeHttp = none)
    (hnoasio : strFind (host ++ portSuffix oport) schemeAsio = none) :
    ServerAddress.toChars
        (ServerAddress.fromHostname (pre ++ host ++ portSuffix oport)) =
      normSpec (pre ++ host ++ portSuffix oport) := by
  rcases hpre with rfl | rfl | rfl
  · -- no scheme prefix: TCP transport, prefix elided (there was none)
    rw [List.nil_append,
      fromHostname_of_scan _ host oport ServerType.Asio hcolon hport
        (prefixScan_plain _ hnohttp hnoasio)]
    have hasio := strFind_none_not_isPrefixOf _ _ hnoasio
    have hhttp := strFind_none_not_isPrefixOf _ _ hnohttp
    cases oport with
    | some p =>
      have hr : strRfind (host ++ portSuffix (some p)) ':' = some host.length :=
        strRfind_last host (natToChars p) ':' (natToChars_ne_colon p)
      simp only [normSpec, hasio, hhttp, Bool.false_eq_true, if_false, hr,
        Option.isSome_some, if_true]
      simp [ServerAddress.toChars, intToChars_ofNat, portSuffix]
    | none =>
      have hr : strRfind (host ++ portSuffix none) ':' = none := by
        simpa [portSuffix] using strRfind_none host ':' hcolon
      simp only [normSpec, hasio, hhttp, Bool.false_eq_true, if_false, hr,
        Option.isSome_none]
      simp [ServerAddress.toChars, default_port_chars, portSuffix]
  · -- http:// prefix: HTTP transport, prefix preserved
    simp only [List.append_assoc]
    rw [fromHostname_of_scan _ host oport ServerType.Http hcolon hport
      (prefixScan_http _)]
    have hasio : schemeAsio.isPrefixOf
        (schemeHttp ++ (host ++ portSuffix oport)) = false :=
      not_isPrefixOf_asio 'h' ("ttp://".toList ++ (host ++ portSuffix oport))
        (by decide)
    have hhttp : schemeHttp.isPrefixOf
        (schemeHttp ++ (host ++ portSuffix oport)) = true :=
      List.isPrefixOf_iff_prefix.mpr (List.prefix_append _ _)
    have hdrop : (schemeHttp ++ (host ++ portSuffix oport)).drop 7 =
        host ++ portSuffix oport := by
      have h7 : (7 : Nat) = schemeHttp.length := rfl
      rw [h7, List.drop_left]
    cases oport with
    | some p =>
      have hr : strRfind (host ++ portSuffix (some p)) ':' = some host.length :=
        strRfind_last host (natToChars p) ':' (natToChars_ne_colon p)
      simp only [normSpec, hasio, Bool.false_eq_true, if_false, hhttp, if_true,
        hdrop, hr, Option.isSome_some]
      simp [ServerAddress.toChars, intToChars_ofNat, portSuffix]
    | none =>
      have hr : strRfind (host ++ portSuffix none) ':' = none := by
        simpa [portSuffix] using strRfind_none host ':' hcolon
      simp only [normSpec, hasio, Bool.false_eq_true, if_false, hhttp, if_true,
        hdrop, hr, Option.isSome_none]
      simp [ServerAddress.toChars, default_port_chars, portSuffix]
  · -- asio:// prefix: TCP transport, prefix elided
    simp only [List.append_assoc]
    rw [fromHostname_of_scan _ host oport ServerType.Asio hcolon hport
      (prefixScan_asio _ hnohttp)]
    have hasio : schemeAsio.isPrefixOf
        (schemeAsio ++ (host ++ portSuffix oport)) = true :=
      List.isPrefixOf_iff_prefix.mpr (List.prefix_append _ _)
    have hdrop : (schemeAsio ++ (host ++ portSuffix oport)).drop 7 =
        host ++ portSuffix oport := by
      have h7 : (7 : Nat) = schemeAsio.length := rfl
      rw [h7, List.drop_left]
    cases oport with
    | some p =>
      have hr : strRfind (host ++ portSuffix (some p)) ':' = some host.length :=
        strRfind_last host (natToChars p) ':' (natToChars_ne_colon p)
      simp only [normSpec, hasio, if_true, hdrop, hr, Option.isSome_some]
      simp [ServerAddress.toChars, intToChars_ofNat, portSuffix]
    | none =>
      have hr : strRfind (host ++ portSuffix none) ':' = none := by
        simpa [portSuffix] using strRfind_none host ':' hcolon
      simp only [normSpec, hasio, if_true, hdrop, hr, Option.isSome_none]
      simp [ServerAddress.toChars, default_port_chars, portSuffix]


/-- C9 witness: the round-trip law evaluated at `"asio://h:1"`. -/
theorem C9_witness :
    ServerAddress.toChars (ServerAddress.fromHostname
        ("asio://".toList ++ "h".toList ++ portSuffix (some 1))) =
      normSpec ("asio://".toList ++ "h".toList ++ portSuffix (some 1)) :=
  C9_roundtrip "asio://".toList "h".toList (some 1)
    (Or.inr (Or.inr rfl)) (by decide)
    (fun p hp => by injection hp with h; omega) (by decide) (by decide)

end DG
